import Mathlib

/-!
Verification of the karton container session manager and image build pipeline.

The Python sources under `src/karton/` are shallowly embedded here:
pure helpers become Lean functions over `String`/`List Char`; the Docker
engine, the `os.kill` probe and `os.remove`/`os.unlink` outcomes become
oracles (functions passed as arguments); `log.die` and raised exceptions
become `Except` errors; the calls issued to the Docker command line are
collected in an explicit trace.

Python string operations (`startswith`, `endswith`, `strip`, `split`,
`replace`, `int()`, `os.path.join`, `os.path.dirname`, `os.path.normpath`)
are re-implemented with Python semantics instead of relying on the Lean
core versions, so that every definition can be traced back to the exact
behaviour of the source.
-/

namespace Karton

/-- ASCII whitespace stripped by Python `str.strip()` and accepted by `int()`. -/
def isPySpace (c : Char) : Bool :=
  c = ' ' || c = '\t' || c = '\n' || c = '\r' || c = '\x0b' || c = '\x0c'

/-- Python `s.startswith(p)`. -/
def pyStartsWith (s p : String) : Bool :=
  p.data.isPrefixOf s.data

/-- Python `s.endswith(p)`. -/
def pyEndsWith (s p : String) : Bool :=
  p.data.isSuffixOf s.data

/-- Python `s.strip()` with no arguments: drop leading and trailing whitespace. -/
def pyStrip (s : String) : String :=
  ⟨((s.data.dropWhile isPySpace).reverse.dropWhile isPySpace).reverse⟩

/-- Python `s.split(sep)` for a single-character separator, on character lists.
`"".split(c)` gives `[""]`, and separators at the ends give empty fields. -/
def pySplitChar (sep : Char) : List Char → List (List Char)
  | [] => [[]]
  | c :: cs =>
    match pySplitChar sep cs with
    | [] => if c = sep then [[], []] else [[c]]
    | h :: t => if c = sep then [] :: h :: t else (c :: h) :: t

/-- Python `s.split(sep)` for a single-character separator. -/
def pySplit (s : String) (sep : Char) : List String :=
  (pySplitChar sep s.data).map fun l => ⟨l⟩

/-- Core of Python `s.replace(old, rep)` for a non-empty pattern `p :: ps`:
replace every non-overlapping occurrence, scanning left to right.  The
`fuel` argument only bounds the recursion so that it is structural (every
step consumes at least one character, so a fuel equal to the input length
never runs out); `strReplaceAux` always supplies enough. -/
def strReplaceFuel (p : Char) (ps rep : List Char) : Nat → List Char → List Char
  | _, [] => []
  | 0, s => s
  | fuel + 1, c :: rest =>
    if (p :: ps).isPrefixOf (c :: rest) then
      rep ++ strReplaceFuel p ps rep fuel (rest.drop ps.length)
    else
      c :: strReplaceFuel p ps rep fuel rest

/-- Python replace with a non-empty pattern, on character lists. -/
def strReplaceAux (p : Char) (ps rep : List Char) (s : List Char) : List Char :=
  strReplaceFuel p ps rep s.length s

/-- Python `s.replace("", rep)`: insert `rep` before every character and at the end. -/
def strReplaceEmpty (rep : List Char) : List Char → List Char
  | [] => rep
  | c :: rest => rep ++ c :: strReplaceEmpty rep rest

/-- Python `s.replace(old, rep)`: every occurrence is replaced, not only a leading one. -/
def pyReplace (s old rep : String) : String :=
  match old.data with
  | [] => ⟨strReplaceEmpty rep.data s.data⟩
  | p :: ps => ⟨strReplaceAux p ps rep.data s.data⟩

/-- Value of a non-empty list of decimal digits, `none` if empty or non-digit. -/
def decDigitsVal (l : List Char) : Option Nat :=
  if l = [] then none
  else
    l.foldl
      (fun acc? c =>
        acc?.bind fun acc =>
          if '0' ≤ c ∧ c ≤ '9' then some (acc * 10 + (c.toNat - '0'.toNat)) else none)
      (some 0)

/-- Python 2 `int(s)`: optional surrounding whitespace, an optional sign and a
non-empty run of decimal digits; anything else raises `ValueError` (`none`). -/
def pyParseInt (s : String) : Option Int :=
  match (pyStrip s).data with
  | '+' :: ds => (decDigitsVal ds).map Int.ofNat
  | '-' :: ds => (decDigitsVal ds).map fun n => -(n : Int)
  | ds => (decDigitsVal ds).map Int.ofNat

/-- Python `posixpath.join(a, b)` for two components. -/
def pyJoin (a b : String) : String :=
  if pyStartsWith b "/" then b
  else if a = "" || pyEndsWith a "/" then a ++ b
  else a ++ "/" ++ b

/-- Python `posixpath.dirname(p)`: everything before the final slash, with
trailing slashes stripped unless the head is all slashes. -/
def pyDirname (p : String) : String :=
  let r := p.data.reverse.dropWhile fun c => c ≠ '/'
  let head := r.reverse
  if head = [] then ""
  else if head.all fun c => c = '/' then ⟨head⟩
  else ⟨(head.reverse.dropWhile fun c => c = '/').reverse⟩

/-- Python `posixpath.normpath(p)`: collapse repeated separators and resolve
`.` and `..` components, preserving one or exactly two leading slashes. -/
def pyNormpath (path : String) : String :=
  if path = "" then "."
  else
    let slashes : Nat :=
      if pyStartsWith path "//" ∧ ¬ pyStartsWith path "///" then 2
      else if pyStartsWith path "/" then 1
      else 0
    let comps := pySplit path '/'
    let newComps :=
      comps.foldl
        (fun acc comp =>
          if comp = "" ∨ comp = "." then acc
          else if comp ≠ ".." ∨ (slashes = 0 ∧ acc = []) ∨ acc.getLast? = some ".." then
            acc ++ [comp]
          else if acc ≠ [] then acc.dropLast
          else acc)
        []
    let joined := String.intercalate "/" newComps
    let res : String := ⟨(List.replicate slashes '/') ++ joined.data⟩
    if res = "" then "." else res

/-!
`src/karton/lock.py`: `FileLock.acquire` (lines 57-110).

The `fcntl.flock(LOCK_EX | LOCK_NB)` attempts are an oracle indexed by the
attempt number.  Wall-clock time is measured exactly as the source does, as
`counter * self._sleep_time` with `_sleep_time = 0.5` seconds; rationals
stand in for the Python floats (all values reached here are exact in both).
The two optional callbacks are modelled by the booleans saying whether they
were supplied; the outcome records how often each would have been invoked.
-/

namespace Lock

/-- Outcome of one non-blocking `fcntl.flock` attempt: success, `EAGAIN`
(lock held elsewhere), or any other `IOError` (re-raised by the source). -/
inductive FlockOutcome
  | success
  | eagain
  | ioError
deriving DecidableEq

/-- The fixed `self._sleep_time = 0.5` seconds. -/
def sleepTime : ℚ := 1 / 2

/-- How `acquire` ended: lock taken, `TimeoutError` raised (the recorded
number is the value of `counter` when the timeout check fired), or an
`IOError` other than `EAGAIN` propagated. -/
inductive AcquireResult
  | acquired (attempt : Nat)
  | timedOut (counter : Nat)
  | ioError (attempt : Nat)
deriving DecidableEq

/-- Observable outcome of `FileLock.acquire`: the result, the number of
0.5-second sleeps performed, how often the still-waiting callback fired,
whether the timeout callback was invoked, and the final `self._locked`. -/
structure AcquireOutcome where
  result : AcquireResult
  sleeps : Nat
  stillWaitingCalls : Nat
  timeoutCbInvoked : Bool
  locked : Bool
deriving DecidableEq

/-- The `while True` loop of `FileLock.acquire` (lock.py lines 79-108),
starting from a given `counter` and accumulated sleep/callback counts. -/
def acquireGo (flock : Nat → FlockOutcome) (timeout : ℚ) (hasTimeoutCb hasStillWaitingCb : Bool)
    (counter sleeps waits : Nat) : AcquireOutcome :=
  match flock counter with
  | .success => ⟨.acquired counter, sleeps, waits, false, true⟩
  | .ioError => ⟨.ioError counter, sleeps, waits, false, false⟩
  | .eagain =>
    let sleeps' := sleeps + 1
    let waits' :=
      if counter ≠ 0 ∧ counter % 5 = 0 then
        (if hasStillWaitingCb then waits + 1 else waits)
      else waits
    if timeout ≤ (counter : ℚ) * sleepTime then
      ⟨.timedOut counter, sleeps', waits', hasTimeoutCb, false⟩
    else
      acquireGo flock timeout hasTimeoutCb hasStillWaitingCb (counter + 1) sleeps' waits'
termination_by ⌈2 * timeout⌉₊ - counter
decreasing_by
  rename_i hnot
  have hlt : (counter : ℚ) * sleepTime < timeout := lt_of_not_le hnot
  have h2 : (counter : ℚ) < 2 * timeout := by
    simp only [sleepTime] at hlt
    linarith
  have hk : counter < ⌈2 * timeout⌉₊ := Nat.lt_ceil.mpr h2
  omega

/-- `FileLock.acquire`: counter, sleeps and callback counts all start at zero. -/
def acquire (flock : Nat → FlockOutcome) (timeout : ℚ)
    (hasTimeoutCb hasStillWaitingCb : Bool) : AcquireOutcome :=
  acquireGo flock timeout hasTimeoutCb hasStillWaitingCb 0 0 0

end Lock

/-!
`src/karton/container.py` (class `Image`) and `src/karton/dockerctl.py`
(`Docker.is_container_running`).

The Docker engine is an oracle (`Engine`): `inspectOutput cid` is the output
of `docker inspect --format ... cid` (`none` when the command fails with
`CalledProcessError`), `imagesOutput` the output of `docker images -q NAME`
(`none` on failure), `runOutput` the output of `docker run --detach ...`
(`none` on failure), `execOk` whether launching `docker exec` raises
`OSError`, and `execCode` the exit code `proc.call` returns for an exec.
`unlinkOk` models whether `os.unlink` on the container-state record
succeeds.  The calls issued to the engine are collected in a trace; the
concrete argument vectors (bind mounts, consistency suffixes, `--tty`, the
in-container runner paths) only shape the argument list of the traced call
and are not modelled beyond that.

`log.die` and the raised exceptions become the `Died` error type, one
constructor per abort site reached by the embedded code.  Python `assert`
failures are `Died.assertFailed`.
-/

/-- Abort reasons of the embedded code, one per `die`/`raise` site. -/
inductive Died
  | assertFailed
  | cannotListImages
  | imageNotAvailable
  | oldBuildVersion (builtWith current : List Nat)
  | failedToStart
  | stillRunning (cid : String)
  | lastArgIsEnv
  | cdError (dir : String)
  | dockerGone
deriving DecidableEq

/-- One invocation of the external engine binary. -/
inductive EngineCall
  | inspect (cid : String)
  | images
  | run
  | stop (cid : String)
  | exec (cid : String)
deriving DecidableEq

/-- Oracle for the external Docker engine and for `os.unlink`. -/
structure Engine where
  inspectOutput : String → Option String
  imagesOutput : Option String
  runOutput : Option String
  execOk : Bool
  execCode : Int
  unlinkOk : Bool

/-- `Docker.is_container_running` (dockerctl.py lines 281-306): inspect the
container; a failed command means not running, otherwise the stripped
output is compared against the string true. -/
def isContainerRunning (eng : Engine) (cid : String) : Bool :=
  match eng.inspectOutput cid with
  | none => false
  | some out => pyStrip out = "true"

/-- `version.numeric_version` for `__version__ = '1.0.0'` (version.py). -/
def numericVersion : List Nat := [1, 0, 0]

/-- Parsed content of the `running-container-id` file: the container ID and
the `start-time` stamp written by `ensure_container_running`. -/
structure ContainerContent where
  id : String
  startTime : Nat
deriving DecidableEq

/-- The per-image state `Image` carries: the persisted container-state
record (`self._running_container_info_path`) and the in-memory cache
`self._cached_container_content`. -/
structure CState where
  recordFile : Option ContainerContent
  cached : Option ContainerContent
deriving DecidableEq

/-- `Image._load_container_content` (container.py lines 430-458): return the
cache if set, otherwise read and cache the record file; a missing or
unreadable file reports failure. -/
def loadContainerContent (s : CState) : CState × Bool :=
  match s.cached with
  | some _ => (s, true)
  | none =>
    match s.recordFile with
    | none => (s, false)
    | some c => ({ s with cached := some c }, true)

/-- `Image._get_container_id` via `_get_container_info` (lines 460-477). -/
def getContainerId (s : CState) : CState × Option String :=
  match loadContainerContent s with
  | (s', true) => (s', s'.cached.map ContainerContent.id)
  | (s', false) => (s', none)

/-- The slice of `configuration.ImageConfig` that `Image` reads. -/
structure ImageCfg where
  imageName : String
  builtWithVersion : List Nat
  sharedPaths : List (String × String × Option String)
  defaultConsistency : Option String
  hostname : String
  userHome : String
  autoClockSync : Bool
  runCommands : String → List (List String)

/-- The `normalize_dir` helper inside `Image._host_to_container_dir`:
guarantee a single trailing separator. -/
def normalizeDir (d : String) : String :=
  if pyEndsWith d "/" then d else d ++ "/"

/-- The loop of `Image._host_to_container_dir` (lines 496-501) over the
already-reversed shared-path list: first matching normalized host-side
wins, and the match is rewritten with `str.replace`. -/
def hostToContainerGo (hd : String) : List (String × String × Option String) → Option String
  | [] => none
  | (mh, mc, _) :: rest =>
    let mhn := normalizeDir mh
    let mcn := normalizeDir mc
    if pyStartsWith hd mhn then some (pyReplace hd mhn mcn)
    else hostToContainerGo hd rest

/-- `Image._host_to_container_dir` (container.py lines 479-503): normalize
the host directory and scan `reversed(self._image_config.shared_paths)`. -/
def hostToContainerDir (shared : List (String × String × Option String))
    (hostDir : String) : Option String :=
  hostToContainerGo (normalizeDir hostDir) shared.reverse

/-- First character class of the `([a-z_][a-z0-9_]*)=(.*)` pattern with
`re.IGNORECASE` (container.py line 703). -/
def isEnvNameStart (c : Char) : Bool :=
  ('a' ≤ c && c ≤ 'z') || ('A' ≤ c && c ≤ 'Z') || c = '_'

/-- Continuation character class of the same pattern. -/
def isEnvNameChar (c : Char) : Bool :=
  isEnvNameStart c || ('0' ≤ c && c ≤ '9')

/-- `env_re.match(arg)`: the pattern matches at the start of `arg` exactly
when a maximal non-empty run of name characters is followed by an equals
sign; the groups are that name and the rest of the argument up to, but not
including, any newline (`.` does not match a newline and the pattern is
not end-anchored). -/
def envMatch (arg : String) : Option (String × String) :=
  match arg.data with
  | [] => none
  | c :: rest =>
    if isEnvNameStart c then
      let nameTail := rest.takeWhile isEnvNameChar
      match rest.drop nameTail.length with
      | '=' :: v => some (⟨c :: nameTail⟩, ⟨v.takeWhile fun ch => ch ≠ '\n'⟩)
      | _ => none
    else none

/-- The enumerate loop of `Image._get_env_and_cmd_args` (lines 701-727) over
the remaining arguments, carrying the `env_args` accumulator.  A matching
argument in last position hits the `die` call at line 717. -/
def envLoop : List String → List String → Except Died (List String × List String)
  | [], envArgs => .ok (envArgs, [])
  | [arg], envArgs =>
    match envMatch arg with
    | some _ => .error .lastArgIsEnv
    | none => if arg = "--" then .ok (envArgs, []) else .ok (envArgs, [arg])
  | arg :: rest, envArgs =>
    match envMatch arg with
    | some nv => envLoop rest (envArgs ++ ["--env", nv.1 ++ "=" ++ nv.2])
    | none => if arg = "--" then .ok (envArgs, rest) else .ok (envArgs, arg :: rest)

/-- `Image._get_env_and_cmd_args` (container.py lines 701-727). -/
def getEnvAndCmdArgs (cmdArgs : List String) : Except Died (List String × List String) :=
  envLoop cmdArgs []

/-- The `cd_mode` argument of `Image.exec_command_only` (`CD_YES`, `CD_NO`,
`CD_AUTO`, container.py lines 67-69). -/
inductive CDMode
  | yes
  | no
  | auto
deriving DecidableEq

/-- `Image.exec_command_only` (container.py lines 754-816) up to and
including the `docker exec` launch, in source order: assert on the cached
container ID (Python truthiness, so an empty ID also fails), the
`_die_if_old_build_version` check, working-directory selection (`CDError`
for an unreachable directory under `CD_YES`), the environment-argument
split (which can hit the `die` at line 717), then the engine call.  The
engine only contributes `execOk` here; the exit code is attached by
`execCommandOnly`.  Registration of the in-flight-command record
(`_exec_with_prepared_args`, lines 741-752) writes a per-pid file and
removes it in a `finally` block on every path, so its net effect on the
file set is the identity and it is modelled separately by
`getRunningCommands`. -/
def execCommandOnlyCore (cfg : ImageCfg) (execOk : Bool) (s : CState)
    (cmdArgs : List String) (cdMode : CDMode) (hostCwd : String) :
    Except Died CState × List EngineCall :=
  match getContainerId s with
  | (_, none) => (.error .assertFailed, [])
  | (s', some cid) =>
    if cid = "" then (.error .assertFailed, [])
    else if cfg.builtWithVersion ≠ numericVersion then
      (.error (.oldBuildVersion cfg.builtWithVersion numericVersion), [])
    else
      -- `_check_build_time` only prints a warning, so it has no effect here.
      let containerDirRes : Except Died (Option String) :=
        match cdMode with
        | .no => .ok none
        | _ =>
          match hostToContainerDir cfg.sharedPaths hostCwd with
          | none => if cdMode = .auto then .ok none else .error (.cdError hostCwd)
          | some d => .ok (some d)
      match containerDirRes with
      | .error e => (.error e, [])
      | .ok containerDir =>
        -- A `None` working directory falls back to the image home directory;
        -- the value only shapes the argument vector of the traced call.
        let _workDir := containerDir.getD cfg.userHome
        match getEnvAndCmdArgs cmdArgs with
        | .error e => (.error e, [])
        | .ok _ =>
          if execOk then (.ok s', [.exec cid])
          else (.error .dockerGone, [])

/-- `Image.exec_command_only`: the exit code of the executed command is
whatever `proc.call` returned for the `docker exec` invocation. -/
def execCommandOnly (cfg : ImageCfg) (eng : Engine) (s : CState)
    (cmdArgs : List String) (cdMode : CDMode) (hostCwd : String) :
    Except Died (CState × Int) × List EngineCall :=
  match execCommandOnlyCore cfg eng.execOk s cmdArgs cdMode hostCwd with
  | (.ok s', tr) => (.ok (s', eng.execCode), tr)
  | (.error d, tr) => (.error d, tr)

/-- `Image.exec_commands_for_time` (container.py lines 837-849) on a given
hook command list: run each with `CD_NO`, discarding the exit code. -/
def execCommandsForTime (cfg : ImageCfg) (eng : Engine) (s : CState)
    (cmds : List (List String)) : Except Died CState × List EngineCall :=
  match cmds with
  | [] => (.ok s, [])
  | c :: rest =>
    match execCommandOnly cfg eng s c .no "" with
    | (.error d, tr) => (.error d, tr)
    | (.ok (s', _), tr) =>
      match execCommandsForTime cfg eng s' rest with
      | (r, tr2) => (r, tr ++ tr2)

/-- `Image._run_main_container` (container.py lines 548-614): list the
built images (`die` on failure or when empty), `_die_if_old_build_version`,
then `docker run --detach ...`; on success the stripped output is the new
container ID, stamped with the current time. -/
def runMainContainer (cfg : ImageCfg) (eng : Engine) (now : Nat) :
    Except Died ContainerContent × List EngineCall :=
  match eng.imagesOutput with
  | none => (.error .cannotListImages, [.images])
  | some out =>
    if pyStrip out = "" then (.error .imageNotAvailable, [.images])
    else if cfg.builtWithVersion ≠ numericVersion then
      (.error (.oldBuildVersion cfg.builtWithVersion numericVersion), [.images])
    else
      match eng.runOutput with
      | none => (.error .failedToStart, [.images, .run])
      | some outId => (.ok ⟨pyStrip outId, now⟩, [.images, .run])

/-- The not-running branch of `ensure_container_running` (lines 659-670):
start the container, persist the new record with `json.dump`, then run the
at-start hooks. -/
def startNewContainer (cfg : ImageCfg) (eng : Engine) (now : Nat) (s : CState) :
    Except Died CState × List EngineCall :=
  match runMainContainer cfg eng now with
  | (.error d, tr) => (.error d, tr)
  | (.ok content, tr) =>
    match execCommandsForTime cfg eng { s with recordFile := some content }
        (cfg.runCommands "start") with
    | (r, tr2) => (r, tr ++ tr2)

/-- `Image.ensure_container_running` (container.py lines 646-672).  The
whole body runs under the per-image start `FileLock`; for a single caller
the uncontended acquire succeeds immediately, so the lock itself is not
part of this state transition. -/
def ensureContainerRunning (cfg : ImageCfg) (eng : Engine) (now : Nat) (s : CState) :
    Except Died CState × List EngineCall :=
  match getContainerId s with
  | (s', some cid) =>
    if isContainerRunning eng cid then (.ok s', [.inspect cid])
    else
      match startNewContainer cfg eng now { s' with cached := none } with
      | (r, tr) => (r, .inspect cid :: tr)
  | (s', none) => startNewContainer cfg eng now s'

/-- `Image.force_stop` (container.py lines 674-699): assert a (truthy)
container ID, run the at-stop hooks, issue `docker stop` (a
`CalledProcessError` there is only logged, so the engine oracle does not
branch on it), re-query the engine and `die` if still running, else delete
the record file, ignoring an `OSError` from the deletion. -/
def forceStop (cfg : ImageCfg) (eng : Engine) (s : CState) :
    Except Died CState × List EngineCall :=
  match getContainerId s with
  | (_, none) => (.error .assertFailed, [])
  | (s0, some cid) =>
    if cid = "" then (.error .assertFailed, [])
    else
      match execCommandsForTime cfg eng s0 (cfg.runCommands "stop") with
      | (.error d, tr) => (.error d, tr)
      | (.ok s1, tr) =>
        if isContainerRunning eng cid then
          (.error (.stillRunning cid), tr ++ [.stop cid, .inspect cid])
        else
          (.ok (if eng.unlinkOk then { s1 with recordFile := none } else s1),
           tr ++ [.stop cid, .inspect cid])

/-- One file in the per-image data directory: its basename and its content
(`none` when opening it raises `IOError`, e.g. it was deleted concurrently). -/
structure FileEntry where
  basename : String
  content : Option String
deriving DecidableEq

/-- `Image._RUNNING_COMMAND_PREFIX` (container.py line 72). -/
def runningCommandMark : String := "running-command-"

/-- `basename[len(_RUNNING_COMMAND_PREFIX):]` for a matching basename. -/
def dropMark (s : String) : String :=
  ⟨s.data.drop runningCommandMark.data.length⟩

/-- The loop of `Image._get_running_commands` (container.py lines 888-932)
over the directory entries, with the `commands` accumulator.  Files not
matched by the glob pattern are untouched; a non-numeric pid suffix or an
unreadable file is skipped; a dead pid (per the `os.kill` probe oracle
`alive`) has its record removed if `os.remove` succeeds (`removeOk`) and is
skipped; a live pid is recorded after the `assert pid not in commands`.
The second component is the list of files still on disk afterwards. -/
def grcGo (alive : Int → Bool) (removeOk : String → Bool) :
    List FileEntry → List (Int × List String) →
    Except Died (List (Int × List String)) × List FileEntry
  | [], acc => (.ok acc, [])
  | f :: rest, acc =>
    if pyStartsWith f.basename runningCommandMark then
      match pyParseInt (dropMark f.basename) with
      | none =>
        match grcGo alive removeOk rest acc with
        | (r, keep) => (r, f :: keep)
      | some pid =>
        match f.content with
        | none =>
          match grcGo alive removeOk rest acc with
          | (r, keep) => (r, f :: keep)
        | some content =>
          let args := pySplit content '\x00'
          if alive pid then
            if (acc.map Prod.fst).contains pid then (.error .assertFailed, f :: rest)
            else
              match grcGo alive removeOk rest (acc ++ [(pid, args)]) with
              | (r, keep) => (r, f :: keep)
          else
            if removeOk f.basename then grcGo alive removeOk rest acc
            else
              match grcGo alive removeOk rest acc with
              | (r, keep) => (r, f :: keep)
    else
      match grcGo alive removeOk rest acc with
      | (r, keep) => (r, f :: keep)

/-- `Image._get_running_commands` (container.py lines 888-932). -/
def getRunningCommands (files : List FileEntry) (alive : Int → Bool)
    (removeOk : String → Bool) :
    Except Died (List (Int × List String)) × List FileEntry :=
  grcGo alive removeOk files []

/-- `Image.status` (container.py lines 934-954): no stored ID or an engine
that reports the stored container as not running yields no container and no
commands; otherwise the in-flight commands are enumerated. -/
def status (eng : Engine) (s : CState) (files : List FileEntry)
    (alive : Int → Bool) (removeOk : String → Bool) :
    Except Died (Option String × List (Int × List String)) × CState × List FileEntry :=
  match getContainerId s with
  | (s', none) => (.ok (none, []), s', files)
  | (s', some cid) =>
    if isContainerRunning eng cid then
      match getRunningCommands files alive removeOk with
      | (.ok cmds, files') => (.ok (some cid, cmds), s', files')
      | (.error d, files') => (.error d, s', files')
    else (.ok (none, []), s', files)

/-!
`src/karton/defprops.py`: the current `DefinitionProperties` variant and
its `DefinitionError`.  Only the fields read or written by the embedded
operations are carried; the host system data (`host_system.user_home`) is
inlined as a field.
-/

namespace Defprops

/-- `defprops.DefinitionError`: the definition file path and the message. -/
structure DefinitionError where
  definitionFilePath : String
  msg : String
deriving DecidableEq

/-- The slice of `defprops.DefinitionProperties` state used here.  The
consistency is kept as the optional string the source stores. -/
structure DefinitionProperties where
  definitionFilePath : String
  hostUserHome : String
  imageHomePathOnHost : String
  userHome : String
  distro : String
  defaultConsistency : Option String
  copied : List (String × String)
deriving DecidableEq

/-- `DefinitionProperties.abspath` (defprops.py lines 116-132). -/
def abspath (p : DefinitionProperties) (path : String) : String :=
  if pyStartsWith path "/" then path
  else pyNormpath (pyJoin (pyDirname p.definitionFilePath) path)

/-- Distro names accepted by the `distro` setter (defprops.py line 442). -/
def allowedDistros : List String := ["ubuntu", "debian", "centos", "fedora"]

/-- The name/tag validation shared by both shapes of the `distro` setter. -/
def setDistroChecked (p : DefinitionProperties) (name tag : String) :
    Except DefinitionError DefinitionProperties :=
  if allowedDistros.contains name then .ok { p with distro := name ++ ":" ++ tag }
  else .error ⟨p.definitionFilePath, "Invalid distro name: " ++ name⟩

/-- The `distro` setter (defprops.py lines 430-446): split on the colon; one
field means tag latest, two fields are name and tag, anything else is an
invalid distro; then the name must be a supported distribution. -/
def setDistro (p : DefinitionProperties) (distro : String) :
    Except DefinitionError DefinitionProperties :=
  match pySplit distro ':' with
  | [name] => setDistroChecked p name "latest"
  | [name, tag] => setDistroChecked p name tag
  | _ => .error ⟨p.definitionFilePath, "Invalid distro: " ++ distro⟩

/-- `DefinitionProperties._check_consistency_valid` (defprops.py lines
565-575). -/
def checkConsistencyValid (p : DefinitionProperties) (consistency : Option String)
    (allowNone : Bool) : Except DefinitionError Unit :=
  let valid : List (Option String) :=
    [some "consistent", some "cached", some "delegated"] ++ (if allowNone then [none] else [])
  if valid.contains consistency then .ok ()
  else .error ⟨p.definitionFilePath, "Invalid consistency value"⟩

/-- The `default_consistency` setter (defprops.py lines 614-617):
`None` is not allowed here. -/
def setDefaultConsistency (p : DefinitionProperties) (consistency : Option String) :
    Except DefinitionError DefinitionProperties :=
  match checkConsistencyValid p consistency false with
  | .error e => .error e
  | .ok _ => .ok { p with defaultConsistency := consistency }

/-- `DefinitionProperties.copy` (defprops.py lines 230-249): resolve the
source path first, then require an absolute destination. -/
def copy (p : DefinitionProperties) (srcPath destPath : String) :
    Except DefinitionError DefinitionProperties :=
  let src := abspath p srcPath
  if ¬ pyStartsWith destPath "/" then
    .error ⟨p.definitionFilePath, "The destination path must be absolute."⟩
  else .ok { p with copied := p.copied ++ [(src, destPath)] }

/-- The `share_whole_home` getter (defprops.py lines 365-373). -/
def shareWholeHome (p : DefinitionProperties) : Bool :=
  p.imageHomePathOnHost = p.hostUserHome

/-- The `share_whole_home` setter (defprops.py lines 375-386): setting the
current value is a no-op; turning sharing off after it was on raises a
`DefinitionError`; turning it on points the image home at the host home. -/
def setShareWholeHome (p : DefinitionProperties) (share : Bool) :
    Except DefinitionError DefinitionProperties :=
  if share = shareWholeHome p then .ok p
  else if ¬ share then
    .error ⟨p.definitionFilePath,
      "Cannot reset shared_whole_home after setting it. " ++
      "Just set a different image_home_path_on_host."⟩
  else .ok { p with imageHomePathOnHost := p.hostUserHome }

/-- Validity of a `distro` setter argument, read off the checks the setter
performs: one or two colon-separated fields and a supported name. -/
def validDistroString (d : String) : Bool :=
  match pySplit d ':' with
  | [name] => allowedDistros.contains name
  | [name, _] => allowedDistros.contains name
  | _ => false

end Defprops

/-!
`src/karton/dockerfile.py` (`Builder._generate_docker_stuff` and the
`DefinitionProperties` variant defined in that file, which is the one
`Builder.generate` actually instantiates) and `src/karton/configuration.py`
(`ImageConfig`).  Only the write-back at dockerfile.py lines 796-799 and
the `ImageConfig` accessors it meets are embedded; the emitted Dockerfile
text does not participate in the persisted record.
-/

namespace Dockerfile

/-- The `DefinitionProperties` variant of dockerfile.py (lines 112-507).
It has no consistency levels and no `run_command`/`commands_to_run`:
`get_path_mappings` (lines 185-208) returns plain host/image pairs. -/
structure DefinitionProperties where
  imageName : String
  definitionFilePath : String
  hostUserHome : String
  hostHostname : String
  imageHomePathOnHost : String
  username : String
  userHome : String
  hostnameOverride : Option String
  sharedHomePaths : List String
  sharedPaths : List (String × String)
deriving DecidableEq

/-- `DefinitionProperties.get_path_mappings` (dockerfile.py lines 185-208):
the image home mapping, then the home-relative shares, then the explicit
shares, all as pairs. -/
def getPathMappings (p : DefinitionProperties) : List (String × String) :=
  (p.imageHomePathOnHost, p.userHome) ::
    (p.sharedHomePaths.map fun rel =>
      (Karton.pyJoin p.hostUserHome rel, Karton.pyJoin p.userHome rel)) ++
    p.sharedPaths

/-- The `hostname` getter (dockerfile.py lines 345-359). -/
def hostnameValue (p : DefinitionProperties) : String :=
  match p.hostnameOverride with
  | some h => h
  | none => p.imageName ++ "-on-" ++ p.hostHostname

end Dockerfile

namespace Configuration

/-- One entry of the persisted `shared-paths` JSON list: older documents
stored host/image pairs, newer ones triples with a consistency. -/
inductive SharedPathEntry
  | pair (host cont : String)
  | triple (host cont : String) (consistency : Option String)
deriving DecidableEq

/-- The JSON document `ImageConfig` wraps (`self._content`): absent keys are
`none` and each getter supplies its own default. -/
structure ImageConfigContent where
  contentDirectory : Option String := none
  sharedPathsJson : Option (List SharedPathEntry) := none
  hostnameJson : Option String := none
  userHomeJson : Option String := none
  defaultConsistencyJson : Option String := none
  autoClockSyncJson : Option Bool := none
  builtWithVersionJson : Option (List Nat) := none
  runCommandsJson : Option (List (String × List (List String))) := none
deriving DecidableEq

/-- The `shared_paths` getter (configuration.py lines 140-157): two-element
entries from old versions get a `None` consistency added. -/
def sharedPathsGet (c : ImageConfigContent) : List (String × String × Option String) :=
  (c.sharedPathsJson.getD []).map fun e =>
    match e with
    | .pair h k => (h, k, none)
    | .triple h k cons => (h, k, cons)

/-- The `hostname` getter (configuration.py lines 176-181) with its default
for documents missing the key. -/
def hostnameGet (c : ImageConfigContent) : String :=
  c.hostnameJson.getD "missing-hostname-in-configuration"

/-- The `user_home` getter (configuration.py lines 187-192). -/
def userHomeGet (c : ImageConfigContent) : String :=
  c.userHomeJson.getD "/"

/-- `ImageConfig.run_commands` (configuration.py lines 242-252): a
defaultdict over the `run-commands` key, so a missing key or a missing
hook name reads back as the empty list. -/
def runCommandsGet (c : ImageConfigContent) (whenKey : String) : List (List String) :=
  match c.runCommandsJson with
  | none => []
  | some l =>
    match l.find? fun e => e.1 = whenKey with
    | none => []
    | some e => e.2

/-- The write-back at the end of `Builder._generate_docker_stuff`
(dockerfile.py lines 796-799): only the shared paths (as pairs), the
hostname and the user home are stored before `save()`; no run commands, no
default consistency and no clock-sync flag are written. -/
def generateWriteBack (p : Dockerfile.DefinitionProperties)
    (c : ImageConfigContent) : ImageConfigContent :=
  { c with
    sharedPathsJson :=
      some ((Dockerfile.getPathMappings p).map fun hk => .pair hk.1 hk.2),
    hostnameJson := some (Dockerfile.hostnameValue p),
    userHomeJson := some p.userHome }

end Configuration

/-- Spec-side reading of the path-translation search, for comparison with
`hostToContainerDir`: the matching mount actually used, where a mount
matches when its normalized host side is a leading part of the normalized
host directory.  The scan order of the source (reversed configuration
order) makes this the last matching mount of the configuration. -/
def lastMatchingMount (shared : List (String × String × Option String))
    (hostDir : String) : Option (String × String × Option String) :=
  shared.reverse.find? fun m => pyStartsWith (normalizeDir hostDir) (normalizeDir m.1)

/-- The condition under which `_get_running_commands` deletes a record file
whose pid is dead: the basename matches the glob pattern, its suffix parses
as a pid, the file could be read, and `os.remove` succeeds. -/
def staleReclaimable (removeOk : String → Bool) (f : FileEntry) : Bool :=
  pyStartsWith f.basename runningCommandMark &&
    (pyParseInt (dropMark f.basename)).isSome &&
    f.content.isSome &&
    removeOk f.basename

/-!  Concrete instances used by the witness theorems. -/

namespace Fixtures

/-- A freshly built image configuration with no hooks. -/
def cfg0 : ImageCfg :=
  ⟨"img", [1, 0, 0], [], none, "img-on-host", "/home/u", false, fun _ => []⟩

/-- The same image built by an older tool version. -/
def cfgOld : ImageCfg :=
  { cfg0 with builtWithVersion := [0, 9, 0] }

/-- An engine that reports every container as running. -/
def engUp : Engine :=
  ⟨fun _ => some "true\n", some "abc123\n", some "cid123\n", true, 0, true⟩

/-- An engine that reports every container as stopped. -/
def engDown : Engine :=
  ⟨fun _ => some "false\n", some "abc123\n", some "cid123\n", true, 0, true⟩

/-- No record file and an empty cache. -/
def sEmpty : CState := ⟨none, none⟩

/-- The state persisted after `engUp` started container `cid123` at time 0. -/
def sAfter : CState := ⟨some ⟨"cid123", 0⟩, none⟩

/-- A properties value whose image home is not the host home. -/
def p0 : Defprops.DefinitionProperties :=
  ⟨"/defs/definition.py", "/home/u", "/home/u/.karton/home-dirs/img", "/home/u",
    "ubuntu:latest", some "consistent", []⟩

/-- `p0` after whole-home sharing was enabled. -/
def pEnabled : Defprops.DefinitionProperties :=
  { p0 with imageHomePathOnHost := p0.hostUserHome }

/-- One in-flight-command record file for pid 123. -/
def files0 : List FileEntry := [⟨"running-command-123", some "sleep\x00100"⟩]

/-- A dockerfile-variant properties value with one home share and one
explicit share. -/
def dfP0 : Dockerfile.DefinitionProperties :=
  ⟨"img", "/defs/definition.py", "/home/u", "myhost", "/home/u/.karton/home-dirs/img",
    "u", "/home/u", none, ["src"], [("/opt/x", "/x")]⟩

end Fixtures

end Karton

open Karton

/-!  Helper lemmas (shared; none of them is a claim's theorem). -/

/-- The loop of `_host_to_container_dir` is a find-first-match over the list
it is given, rewriting the match with `str.replace`. -/
theorem hostToContainerGo_eq_find (hd : String)
    (l : List (String × String × Option String)) :
    hostToContainerGo hd l =
      (l.find? fun m => pyStartsWith hd (normalizeDir m.1)).map
        (fun m => pyReplace hd (normalizeDir m.1) (normalizeDir m.2.1)) := by
  induction l with
  | nil => rfl
  | cons m rest ih =>
    obtain ⟨mh, mc, cs⟩ := m
    by_cases h : pyStartsWith hd (normalizeDir mh) = true
    · simp [hostToContainerGo, List.find?_cons_of_pos, h]
    · simp only [Bool.not_eq_true] at h
      simpa [hostToContainerGo, h, List.find?_cons_of_neg] using ih

/-- C3 (amended): path translation normalizes the host directory with a
trailing separator and scans the configured mounts in reverse order,
using the last matching mount of the configuration (not the longest
match); a mount matches when its normalized host side, trailing separator
included, is a leading part of the host directory (so /home/foo does not
match /home/foobar); every occurrence of that normalized host side is
rewritten to the normalized container side, so results carry a trailing
separator; with mounts [(/home/u/src, /src)] the directory
/home/u/src/sub/dir translates to /src/sub/dir/ and the sibling
/home/u/srcfoo is not reachable (`none`). -/
theorem host_to_container_dir_last_match
    (shared : List (String × String × Option String)) (hostDir : String) :
    hostToContainerDir shared hostDir =
      (lastMatchingMount shared hostDir).map
        (fun m => pyReplace (normalizeDir hostDir) (normalizeDir m.1) (normalizeDir m.2.1)) ∧
    hostToContainerDir [("/home/u/src", "/src", none)] "/home/u/src/sub/dir" =
      some "/src/sub/dir/" ∧
    hostToContainerDir [("/home/u/src", "/src", none)] "/home/u/srcfoo" = none ∧
    hostToContainerDir [("/home/foo", "/fx", none)] "/home/foobar" = none := by
  refine ⟨hostToContainerGo_eq_find (normalizeDir hostDir) shared.reverse, ?_, ?_, ?_⟩ <;> decide

/-- C3 (counterexample): with mounts [(/a/b, /y), (/a, /x)] the directory
/a/b/c is translated through the mount (/a, /x), which is the last one in
configuration order, not through the longest matching mount (/a/b, /y)
whose rewrite would be /y/c/; and the spec's example value /src/sub/dir is
not what the code returns (the result keeps a trailing separator). -/
theorem host_to_container_dir_claim_false :
    hostToContainerDir [("/a/b", "/y", none), ("/a", "/x", none)] "/a/b/c" = some "/x/b/c/" ∧
    pyReplace (normalizeDir "/a/b/c") (normalizeDir "/a/b") (normalizeDir "/y") = "/y/c/" ∧
    hostToContainerDir [("/a/b", "/y", none), ("/a", "/x", none)] "/a/b/c" ≠ some "/y/c/" ∧
    hostToContainerDir [("/home/u/src", "/src", none)] "/home/u/src/sub/dir" ≠
      some "/src/sub/dir" := by
  refine ⟨?_, ?_, ?_, ?_⟩ <;> decide

/-- With contention on every attempt, `acquire`'s loop always ends in the
timeout branch: the result records the first counter value at which the
elapsed-time check fired, one sleep happened per attempt including the
final one, the timeout callback fired exactly if one was supplied, and the
lock was never marked as held. -/
theorem acquireGo_all_eagain (flock : Nat → Lock.FlockOutcome) (timeout : ℚ)
    (hcb hwcb : Bool) (hheld : ∀ n, flock n = Lock.FlockOutcome.eagain) :
    ∀ fuel k s w, ⌈2 * timeout⌉₊ - k ≤ fuel →
      ∃ c w', k ≤ c ∧ timeout ≤ (c : ℚ) * Lock.sleepTime ∧
        (∀ m, k ≤ m → m < c → (m : ℚ) * Lock.sleepTime < timeout) ∧
        Lock.acquireGo flock timeout hcb hwcb k s w =
          ⟨.timedOut c, s + (c - k) + 1, w', hcb, false⟩ := by
  intro fuel
  induction fuel with
  | zero =>
    intro k s w hk
    have hk0 : ⌈2 * timeout⌉₊ ≤ k := by omega
    have hle : 2 * timeout ≤ (k : ℚ) := Nat.ceil_le.mp hk0
    have htime : timeout ≤ (k : ℚ) * Lock.sleepTime := by
      simp only [Lock.sleepTime]
      linarith
    refine ⟨k, if k ≠ 0 ∧ k % 5 = 0 then (if hwcb then w + 1 else w) else w,
      le_refl k, htime, ?_, ?_⟩
    · intro m hm1 hm2
      exact absurd hm2 (by omega)
    · rw [Lock.acquireGo, hheld k]
      simp only [htime, if_true, Nat.sub_self]
  | succ fuel ih =>
    intro k s w hk
    by_cases htime : timeout ≤ (k : ℚ) * Lock.sleepTime
    · refine ⟨k, if k ≠ 0 ∧ k % 5 = 0 then (if hwcb then w + 1 else w) else w,
        le_refl k, htime, ?_, ?_⟩
      · intro m hm1 hm2
        exact absurd hm2 (by omega)
      · rw [Lock.acquireGo, hheld k]
        simp only [htime, if_true, Nat.sub_self]
    · have hlt : (k : ℚ) * Lock.sleepTime < timeout := lt_of_not_le htime
      have h2 : (k : ℚ) < 2 * timeout := by
        simp only [Lock.sleepTime] at hlt
        linarith
      have hkc : k < ⌈2 * timeout⌉₊ := Nat.lt_ceil.mpr h2
      obtain ⟨c, w', hkc', htime', hmin, heq⟩ :=
        ih (k + 1) (s + 1)
          (if k ≠ 0 ∧ k % 5 = 0 then (if hwcb then w + 1 else w) else w) (by omega)
      refine ⟨c, w', by omega, htime', ?_, ?_⟩
      · intro m hm1 hm2
        rcases eq_or_lt_of_le hm1 with h | h
        · exact h ▸ hlt
        · exact hmin m h hm2
      · rw [Lock.acquireGo, hheld k]
        simp only [htime, if_false]
        have harith : s + 1 + (c - (k + 1)) + 1 = s + (c - k) + 1 := by omega
        rw [heq, harith]

/-- C5: with the lock file exclusively held by another process (every flock
attempt yields EAGAIN), `acquire` never returns successfully: it ends in
the timeout branch with the lock never marked held, invokes the timeout
callback exactly when one was supplied, the polling time at the final
check has reached the configured timeout, and a 2-second timeout raises
after 5 sleeps of half a second, within the 3-second margin. -/
theorem filelock_acquire_timeout (flock : Nat → Lock.FlockOutcome) (timeout : ℚ)
    (hcb hwcb : Bool) (hheld : ∀ n, flock n = Lock.FlockOutcome.eagain) :
    (∃ c, (Lock.acquire flock timeout hcb hwcb).result = .timedOut c ∧
      timeout ≤ (c : ℚ) * Lock.sleepTime ∧
      (Lock.acquire flock timeout hcb hwcb).sleeps = c + 1) ∧
    (Lock.acquire flock timeout hcb hwcb).locked = false ∧
    (Lock.acquire flock timeout hcb hwcb).timeoutCbInvoked = hcb ∧
    (timeout = 2 →
      (Lock.acquire flock timeout hcb hwcb).result = .timedOut 4 ∧
      (Lock.acquire flock timeout hcb hwcb).sleeps = 5 ∧
      (5 : ℚ) * Lock.sleepTime ≤ 3) := by
  obtain ⟨c, w', hkc, ht, hmin, heq⟩ :=
    acquireGo_all_eagain flock timeout hcb hwcb hheld (⌈2 * timeout⌉₊) 0 0 0 (by omega)
  have hacq : Lock.acquire flock timeout hcb hwcb =
      ⟨.timedOut c, 0 + (c - 0) + 1, w', hcb, false⟩ := heq
  refine ⟨⟨c, by rw [hacq], ht, by rw [hacq]; show 0 + (c - 0) + 1 = c + 1; omega⟩,
    by rw [hacq], by rw [hacq], ?_⟩
  intro h2
  subst h2
  have hc4 : (4 : ℚ) ≤ (c : ℚ) := by
    simp only [Lock.sleepTime] at ht
    linarith
  have hcge : 4 ≤ c := by exact_mod_cast hc4
  have hcle : c ≤ 4 := by
    by_contra hgt
    have := hmin 4 (by omega) (by omega)
    simp only [Lock.sleepTime] at this
    norm_num at this
  have hc : c = 4 := le_antisymm hcle hcge
  subst hc
  refine ⟨by rw [hacq], by rw [hacq], ?_⟩
  simp only [Lock.sleepTime]
  norm_num

/-- C5 (witness): a concrete always-contended lock with a 2-second timeout. -/
theorem filelock_acquire_timeout_witness :
    (Lock.acquire (fun _ => .eagain) 2 true true).result = .timedOut 4 ∧
    (Lock.acquire (fun _ => .eagain) 2 true true).sleeps = 5 ∧
    (Lock.acquire (fun _ => .eagain) 2 true true).locked = false ∧
    (Lock.acquire (fun _ => .eagain) 2 true true).timeoutCbInvoked = true := by
  have h := filelock_acquire_timeout (fun _ => .eagain) 2 true true (fun _ => rfl)
  exact ⟨(h.2.2.2 rfl).1, (h.2.2.2 rfl).2.1, h.2.1, h.2.2.1⟩

/-- C7 (amended): every malformed property setting on the current
`DefinitionProperties` — an invalid distro string, an invalid consistency
value, a non-absolute copy destination, or attempting to disable
whole-home sharing after it was enabled — raises a `DefinitionError`
carrying the path of the offending definition file.  (Re-enabling after a
disable is not an error: disabling is either itself the failing step or a
no-op, see the counterexample.) -/
theorem defprops_definition_errors (p : Defprops.DefinitionProperties) :
    (∀ d, Defprops.validDistroString d = false →
      ∃ m, Defprops.setDistro p d = .error ⟨p.definitionFilePath, m⟩) ∧
    (∀ c, (([some "consistent", some "cached", some "delegated"] :
        List (Option String)).contains c) = false →
      ∃ m, Defprops.setDefaultConsistency p c = .error ⟨p.definitionFilePath, m⟩) ∧
    (∀ src dst, pyStartsWith dst "/" = false →
      Defprops.copy p src dst =
        .error ⟨p.definitionFilePath, "The destination path must be absolute."⟩) ∧
    (Defprops.shareWholeHome p = true →
      ∃ m, Defprops.setShareWholeHome p false = .error ⟨p.definitionFilePath, m⟩) := by
  refine ⟨?_, ?_, ?_, ?_⟩
  · intro d hd
    unfold Defprops.validDistroString at hd
    unfold Defprops.setDistro
    cases hs : pySplit d ':' with
    | nil => exact ⟨_, rfl⟩
    | cons n t =>
      cases t with
      | nil =>
        rw [hs] at hd
        have hd' : Defprops.allowedDistros.contains n = false := hd
        exact ⟨"Invalid distro name: " ++ n,
          by simp only [Defprops.setDistroChecked]; rw [hd']; simp⟩
      | cons t2 t3 =>
        cases t3 with
        | nil =>
          rw [hs] at hd
          have hd' : Defprops.allowedDistros.contains n = false := hd
          exact ⟨"Invalid distro name: " ++ n,
            by simp only [Defprops.setDistroChecked]; rw [hd']; simp⟩
        | cons t4 t5 => exact ⟨_, rfl⟩
  · intro c hc
    refine ⟨"Invalid consistency value", ?_⟩
    simp at hc
    simp [Defprops.setDefaultConsistency, Defprops.checkConsistencyValid, hc]
  · intro src dst hdst
    simp [Defprops.copy, hdst]
  · intro hs
    refine ⟨"Cannot reset shared_whole_home after setting it. " ++
      "Just set a different image_home_path_on_host.", ?_⟩
    simp [Defprops.setShareWholeHome, hs]

/-- C7 (counterexample): attempting to re-enable whole-home sharing after
disabling it does not raise: on a properties value that does not share the
whole home, assigning `share_whole_home = False` is a silent no-op and a
following `share_whole_home = True` succeeds.  (What does raise is the
opposite order, disabling after enabling, covered by the amended claim.) -/
theorem share_whole_home_reenable_no_error :
    Defprops.setShareWholeHome Fixtures.p0 false = .ok Fixtures.p0 ∧
    Defprops.setShareWholeHome Fixtures.p0 true = .ok Fixtures.pEnabled :=
  ⟨rfl, rfl⟩

/-- C7 (witness): the four error families at concrete malformed inputs. -/
theorem defprops_definition_errors_witness :
    (∃ m, Defprops.setDistro Fixtures.p0 "arch" = .error ⟨"/defs/definition.py", m⟩) ∧
    (∃ m, Defprops.setDefaultConsistency Fixtures.p0 (some "fast") =
      .error ⟨"/defs/definition.py", m⟩) ∧
    (Defprops.copy Fixtures.p0 "files/x" "rel/dst" =
      .error ⟨"/defs/definition.py", "The destination path must be absolute."⟩) ∧
    (∃ m, Defprops.setShareWholeHome Fixtures.pEnabled false =
      .error ⟨"/defs/definition.py", m⟩) := by
  have h0 := defprops_definition_errors Fixtures.p0
  have h1 := defprops_definition_errors Fixtures.pEnabled
  exact ⟨h0.1 "arch" rfl, h0.2.1 (some "fast") rfl, h0.2.2.1 "files/x" "rel/dst" rfl,
    h1.2.2.2 rfl⟩

/-- C4: the rendering write-back of `Builder._generate_docker_stuff`
persists only the shared-path pairs, the hostname and the user home.  It
never writes the `run-commands` key, so on a freshly rendered record every
per-hook command list reads back empty, the persisted shared paths read
back as triples with a `None` consistency, and only hostname and user home
round-trip — the claimed hook-list round-trip does not happen (see the
repository's own tests, which expect it). -/
theorem writeback_persists_no_hook_lists (p : Dockerfile.DefinitionProperties)
    (c : Configuration.ImageConfigContent) (h : c.runCommandsJson = none) :
    (Configuration.generateWriteBack p c).runCommandsJson = none ∧
    (∀ whenKey, Configuration.runCommandsGet (Configuration.generateWriteBack p c) whenKey = []) ∧
    Configuration.hostnameGet (Configuration.generateWriteBack p c) =
      Dockerfile.hostnameValue p ∧
    Configuration.userHomeGet (Configuration.generateWriteBack p c) = p.userHome ∧
    Configuration.sharedPathsGet (Configuration.generateWriteBack p c) =
      (Dockerfile.getPathMappings p).map (fun hk => (hk.1, hk.2, none)) := by
  refine ⟨h, ?_, rfl, rfl, ?_⟩
  · intro whenKey
    simp [Configuration.runCommandsGet, Configuration.generateWriteBack, h]
  · simp [Configuration.sharedPathsGet, Configuration.generateWriteBack]

/-- C4 (witness): a concrete rendering over a fresh record reads back
empty at-stop hooks. -/
theorem writeback_persists_no_hook_lists_witness :
    Configuration.runCommandsGet
      (Configuration.generateWriteBack Fixtures.dfP0 {}) "stop" = [] :=
  (writeback_persists_no_hook_lists Fixtures.dfP0 {} rfl).2.1 "stop"

/-- When every prefixed record file names a dead pid, the enumeration loop
returns its accumulator unchanged and keeps exactly the files that are not
reclaimable (unmatched, unparseable, unreadable, or with a failing remove). -/
theorem grcGo_all_stale (alive : Int → Bool) (removeOk : String → Bool) :
    ∀ (files : List FileEntry) (acc : List (Int × List String)),
      (∀ f ∈ files, pyStartsWith f.basename runningCommandMark = true →
        ∀ pid, pyParseInt (dropMark f.basename) = some pid → alive pid = false) →
      grcGo alive removeOk files acc =
        (.ok acc, files.filter fun f => !(staleReclaimable removeOk f)) := by
  intro files
  induction files with
  | nil => intro acc _; rfl
  | cons f rest ih =>
    intro acc h
    have hf := h f (List.mem_cons_self f rest)
    have hrest := fun g hg => h g (List.mem_cons_of_mem f hg)
    by_cases hmark : pyStartsWith f.basename runningCommandMark = true
    · cases hpid : pyParseInt (dropMark f.basename) with
      | none =>
        simp [grcGo, hmark, hpid, ih acc hrest, List.filter_cons, staleReclaimable]
      | some pid =>
        have hdead : alive pid = false := hf hmark pid hpid
        cases hcont : f.content with
        | none =>
          simp [grcGo, hmark, hpid, hcont, ih acc hrest, List.filter_cons, staleReclaimable]
        | some content =>
          by_cases hrem : removeOk f.basename = true
          · simp [grcGo, hmark, hpid, hcont, hdead, hrem, ih acc hrest,
              List.filter_cons, staleReclaimable]
          · simp only [Bool.not_eq_true] at hrem
            simp [grcGo, hmark, hpid, hcont, hdead, hrem, ih acc hrest,
              List.filter_cons, staleReclaimable]
    · simp only [Bool.not_eq_true] at hmark
      simp [grcGo, hmark, ih acc hrest, List.filter_cons, staleReclaimable]

/-- The files surviving an enumeration are drawn from the input files. -/
theorem grcGo_keep_subset (alive : Int → Bool) (removeOk : String → Bool) :
    ∀ (files : List FileEntry) (acc : List (Int × List String)) (f : FileEntry),
      f ∈ (grcGo alive removeOk files acc).2 → f ∈ files := by
  intro files
  induction files with
  | nil =>
    intro acc f hf
    simp [grcGo] at hf
  | cons g rest ih =>
    intro acc f hf
    unfold grcGo at hf
    split at hf
    · split at hf
      · split at hf
        next r0 k0 heq =>
          simp only [] at hf
          rcases List.mem_cons.mp hf with rfl | hf2
          · exact List.mem_cons_self _ _
          · exact List.mem_cons_of_mem g (ih acc f (by rw [heq]; exact hf2))
      · split at hf
        · split at hf
          next r0 k0 heq =>
            simp only [] at hf
            rcases List.mem_cons.mp hf with rfl | hf2
            · exact List.mem_cons_self _ _
            · exact List.mem_cons_of_mem g (ih acc f (by rw [heq]; exact hf2))
        · split at hf
          · split at hf
            · exact hf
            · simp only [] at hf
              rcases List.mem_cons.mp hf with rfl | hf2
              · exact List.mem_cons_self _ _
              · exact List.mem_cons_of_mem g (ih _ f hf2)
          · split at hf
            · exact List.mem_cons_of_mem g (ih acc f hf)
            · split at hf
              next r0 k0 heq =>
                simp only [] at hf
                rcases List.mem_cons.mp hf with rfl | hf2
                · exact List.mem_cons_self _ _
                · exact List.mem_cons_of_mem g (ih acc f (by rw [heq]; exact hf2))
    · split at hf
      next r0 k0 heq =>
        simp only [] at hf
        rcases List.mem_cons.mp hf with rfl | hf2
        · exact List.mem_cons_self _ _
        · exact List.mem_cons_of_mem g (ih acc f (by rw [heq]; exact hf2))

/-- Every command entry a successful enumeration adds beyond its
accumulator belongs to a live pid. -/
theorem grcGo_entries_alive (alive : Int → Bool) (removeOk : String → Bool) :
    ∀ (files : List FileEntry) (acc : List (Int × List String)) r keep,
      grcGo alive removeOk files acc = (.ok r, keep) →
      ∀ e ∈ r, e ∈ acc ∨ alive e.1 = true := by
  intro files
  induction files with
  | nil =>
    intro acc r keep h e he
    obtain ⟨hr, -⟩ : (Except.ok acc : Except Died (List (Int × List String))) = .ok r ∧
        ([] : List FileEntry) = keep := by simpa [grcGo, Prod.ext_iff] using h
    left
    rwa [← Except.ok.injEq acc r |>.mp hr] at he
  | cons g rest ih =>
    intro acc r keep h e he
    unfold grcGo at h
    split at h
    · split at h
      · split at h
        next r0 k0 heq =>
          obtain ⟨hr, -⟩ : r0 = .ok r ∧ g :: k0 = keep := by simpa [Prod.ext_iff] using h
          exact ih acc r k0 (by rw [heq, hr]) e he
      · split at h
        · split at h
          next r0 k0 heq =>
            obtain ⟨hr, -⟩ : r0 = .ok r ∧ g :: k0 = keep := by simpa [Prod.ext_iff] using h
            exact ih acc r k0 (by rw [heq, hr]) e he
        · split at h
          · split at h
            · simp at h
            · next hdup =>
              rename_i hmark xo pid hpid xc out hcont halive
              simp only [] at h
              rcases hrec : grcGo alive removeOk rest (acc ++ [(pid, pySplit out '\x00')])
                with ⟨r0, k0⟩
              rw [hrec] at h
              obtain ⟨hr, -⟩ : r0 = .ok r ∧ g :: k0 = keep := by
                simpa [Prod.ext_iff] using h
              rcases ih _ r k0 (by rw [hrec, hr]) e he with hacc | hlive
              · rcases List.mem_append.mp hacc with hacc2 | hone
                · exact .inl hacc2
                · right
                  obtain rfl : e = _ := List.mem_singleton.mp hone
                  exact halive
              · exact .inr hlive
          · split at h
            · exact ih acc r keep h e he
            · split at h
              next r0 k0 heq =>
                obtain ⟨hr, -⟩ : r0 = .ok r ∧ g :: k0 = keep := by
                  simpa [Prod.ext_iff] using h
                exact ih acc r k0 (by rw [heq, hr]) e he
    · split at h
      next r0 k0 heq =>
        obtain ⟨hr, -⟩ : r0 = .ok r ∧ g :: k0 = keep := by simpa [Prod.ext_iff] using h
        exact ih acc r k0 (by rw [heq, hr]) e he

/-- Any record file matching the glob, with a parseable pid, readable
content, a dead pid and a succeeding remove is gone from the surviving
file list of a successful enumeration. -/
theorem grcGo_stale_removed (alive : Int → Bool) (removeOk : String → Bool) :
    ∀ (files : List FileEntry) (acc : List (Int × List String)) r keep,
      grcGo alive removeOk files acc = (.ok r, keep) →
      ∀ f ∈ files, pyStartsWith f.basename runningCommandMark = true →
        ∀ p, pyParseInt (dropMark f.basename) = some p → alive p = false →
        f.content.isSome → removeOk f.basename = true → f ∉ keep := by
  intro files
  induction files with
  | nil =>
    intro acc r keep h f hf
    simp at hf
  | cons g rest ih =>
    intro acc r keep h f hf hfmark p hfp hfdead hfcont hfrem
    unfold grcGo at h
    split at h
    · next hgmark =>
      split at h
      · next hgpid =>
        split at h
        next r0 k0 heq =>
          obtain ⟨hr, hk⟩ : r0 = .ok r ∧ g :: k0 = keep := by simpa [Prod.ext_iff] using h
          rw [← hk]
          intro hmem
          rcases List.mem_cons.mp hmem with rfl | hmem2
          · rw [hgpid] at hfp
            exact Option.noConfusion hfp
          · by_cases hfr : f ∈ rest
            · exact ih acc r k0 (by rw [heq, hr]) f hfr hfmark p hfp hfdead hfcont hfrem hmem2
            · exact hfr (grcGo_keep_subset alive removeOk rest acc f (by rw [heq]; exact hmem2))
      · next pid hgpid =>
        split at h
        · next hgcont =>
          split at h
          next r0 k0 heq =>
            obtain ⟨hr, hk⟩ : r0 = .ok r ∧ g :: k0 = keep := by simpa [Prod.ext_iff] using h
            rw [← hk]
            intro hmem
            rcases List.mem_cons.mp hmem with rfl | hmem2
            · rw [hgcont] at hfcont
              simp at hfcont
            · by_cases hfr : f ∈ rest
              · exact ih acc r k0 (by rw [heq, hr]) f hfr hfmark p hfp hfdead hfcont hfrem hmem2
              · exact hfr (grcGo_keep_subset alive removeOk rest acc f (by rw [heq]; exact hmem2))
        · next out hgcont =>
          split at h
          · next halive =>
            split at h
            · simp at h
            · next hdup =>
              simp only [] at h
              rcases hrec : grcGo alive removeOk rest (acc ++ [(pid, pySplit out '\x00')])
                with ⟨r0, k0⟩
              rw [hrec] at h
              obtain ⟨hr, hk⟩ : r0 = .ok r ∧ g :: k0 = keep := by
                simpa [Prod.ext_iff] using h
              rw [← hk]
              intro hmem
              rcases List.mem_cons.mp hmem with rfl | hmem2
              · rw [hgpid] at hfp
                obtain rfl : pid = p := Option.some.inj hfp
                rw [halive] at hfdead
                exact Bool.noConfusion hfdead
              · by_cases hfr : f ∈ rest
                · exact ih _ r k0 (by rw [hrec, hr]) f hfr hfmark p hfp hfdead hfcont hfrem hmem2
                · exact hfr (grcGo_keep_subset alive removeOk rest _ f (by rw [hrec]; exact hmem2))
          · next halive =>
            split at h
            · next hgrem =>
              intro hmem
              by_cases hfr : f ∈ rest
              · exact ih acc r keep h f hfr hfmark p hfp hfdead hfcont hfrem hmem
              · exact hfr (grcGo_keep_subset alive removeOk rest acc f (by rw [h]; exact hmem))
            · next hgrem =>
              split at h
              next r0 k0 heq =>
                obtain ⟨hr, hk⟩ : r0 = .ok r ∧ g :: k0 = keep := by
                  simpa [Prod.ext_iff] using h
                rw [← hk]
                intro hmem
                rcases List.mem_cons.mp hmem with rfl | hmem2
                · exact hgrem hfrem
                · by_cases hfr : f ∈ rest
                  · exact ih acc r k0 (by rw [heq, hr]) f hfr hfmark p hfp hfdead hfcont hfrem hmem2
                  · exact hfr (grcGo_keep_subset alive removeOk rest acc f (by rw [heq]; exact hmem2))
    · next hgmark =>
      split at h
      next r0 k0 heq =>
        obtain ⟨hr, hk⟩ : r0 = .ok r ∧ g :: k0 = keep := by simpa [Prod.ext_iff] using h
        rw [← hk]
        intro hmem
        rcases List.mem_cons.mp hmem with rfl | hmem2
        · exact hgmark hfmark
        · by_cases hfr : f ∈ rest
          · exact ih acc r k0 (by rw [heq, hr]) f hfr hfmark p hfp hfdead hfcont hfrem hmem2
          · exact hfr (grcGo_keep_subset alive removeOk rest acc f (by rw [heq]; exact hmem2))

/-- C8: when an in-flight-command record file names a host pid whose
signal-probe fails (the pid is dead), enumerating the in-flight commands
deletes the stale file (provided `os.remove` succeeds) and omits its entry:
in any successful enumeration every returned entry belongs to a live pid
and every reclaimable stale file is gone from the surviving files; and
with only stale records present the enumeration returns the empty
collection, keeping exactly the non-reclaimable files on disk. -/
theorem list_in_flight_reclaims (alive : Int → Bool) (removeOk : String → Bool)
    (files : List FileEntry)
    (hstale : ∀ f ∈ files, pyStartsWith f.basename runningCommandMark = true →
      ∀ pid, pyParseInt (dropMark f.basename) = some pid → alive pid = false) :
    getRunningCommands files alive removeOk =
      (.ok [], files.filter fun f => !(staleReclaimable removeOk f)) ∧
    (∀ f ∈ files, staleReclaimable removeOk f = true →
      f ∉ (getRunningCommands files alive removeOk).2) ∧
    (∀ (files' : List FileEntry) (r : List (Int × List String)) (keep : List FileEntry),
      getRunningCommands files' alive removeOk = (.ok r, keep) →
      (∀ e ∈ r, alive e.1 = true) ∧
      (∀ f ∈ files', pyStartsWith f.basename runningCommandMark = true →
        ∀ p, pyParseInt (dropMark f.basename) = some p → alive p = false →
        f.content.isSome → removeOk f.basename = true → f ∉ keep)) := by
  have h : getRunningCommands files alive removeOk =
      (.ok [], files.filter fun f => !(staleReclaimable removeOk f)) :=
    grcGo_all_stale alive removeOk files [] hstale
  refine ⟨h, ?_, ?_⟩
  · intro f _ hrec hmem
    rw [h] at hmem
    have := (List.mem_filter.mp hmem).2
    rw [hrec] at this
    simp at this
  · intro files' r keep hgen
    refine ⟨?_, grcGo_stale_removed alive removeOk files' [] r keep hgen⟩
    intro e he
    rcases grcGo_entries_alive alive removeOk files' [] r keep hgen e he with hacc | hlive
    · simp at hacc
    · exact hlive

/-- C8 (witness): a single record for the dead pid 123 is reclaimed. -/
theorem list_in_flight_reclaims_witness :
    getRunningCommands Fixtures.files0 (fun _ => false) (fun _ => true) = (.ok [], []) ∧
    (⟨"running-command-123", some "sleep\x00100"⟩ : FileEntry) ∉
      (getRunningCommands Fixtures.files0 (fun _ => false) (fun _ => true)).2 := by
  have h := list_in_flight_reclaims (fun _ => false) (fun _ => true) Fixtures.files0
    (fun _ _ _ _ _ => rfl)
  refine ⟨by rw [h.1]; rfl, ?_⟩
  exact h.2.1 ⟨"running-command-123", some "sleep\x00100"⟩ (List.mem_singleton.mpr rfl) rfl

/-- C9: `status` never reports in-flight commands for a non-running
container: whenever it returns no container identifier (no readable record,
or the engine reports the recorded container as not running), the
accompanying command collection is empty, regardless of the record files on
disk. -/
theorem status_not_running_no_commands (eng : Engine) (s : CState)
    (files : List FileEntry) (alive : Int → Bool) (removeOk : String → Bool)
    (cmds : List (Int × List String)) (s' : CState) (files' : List FileEntry)
    (h : status eng s files alive removeOk = (.ok (none, cmds), s', files')) :
    cmds = [] := by
  unfold status at h
  split at h
  · simp at h
    exact h.1
  · split at h
    · split at h
      · simp at h
      · simp at h
    · simp at h
      exact h.1

/-- C9 (witness): an empty state with a stale record file on disk. -/
theorem status_not_running_no_commands_witness :
    status Fixtures.engUp Fixtures.sEmpty Fixtures.files0 (fun _ => true) (fun _ => true) =
      (.ok (none, []), Fixtures.sEmpty, Fixtures.files0) ∧
    ([] : List (Int × List String)) = [] :=
  ⟨rfl, status_not_running_no_commands Fixtures.engUp Fixtures.sEmpty Fixtures.files0
    (fun _ => true) (fun _ => true) [] Fixtures.sEmpty Fixtures.files0 rfl⟩

/-- The env-argument loop dies at the line-717 `die` when every argument of
a non-empty command line matches the NAME=VALUE pattern. -/
theorem envLoop_all_env :
    ∀ (l : List String) (env0 : List String), l ≠ [] →
      (∀ a ∈ l, (envMatch a).isSome = true) →
      envLoop l env0 = .error .lastArgIsEnv := by
  intro l
  induction l with
  | nil => intro env0 hne _; exact absurd rfl hne
  | cons a t ih =>
    intro env0 _ hall
    have ha : (envMatch a).isSome = true := hall a (List.mem_cons_self a t)
    rcases hm : envMatch a with _ | nv
    · rw [hm] at ha; simp at ha
    · cases t with
      | nil => simp [envLoop, hm]
      | cons b t2 =>
        have ht : (b :: t2) ≠ [] := by simp
        have hallt : ∀ x ∈ b :: t2, (envMatch x).isSome = true :=
          fun x hx => hall x (List.mem_cons_of_mem a hx)
        simp [envLoop, hm, ih _ ht hallt]

/-- The env-argument loop succeeds when the leading NAME=VALUE arguments
are followed by a non-matching argument. -/
theorem envLoop_env_then_cmd (c : String) (rest : List String) (hc : envMatch c = none) :
    ∀ (envPart : List String) (env0 : List String),
      (∀ a ∈ envPart, (envMatch a).isSome = true) →
      ∃ envArgs, envLoop (envPart ++ c :: rest) env0 =
        .ok (envArgs, if c = "--" then rest else c :: rest) := by
  intro envPart
  induction envPart with
  | nil =>
    intro env0 _
    cases rest with
    | nil =>
      by_cases hdash : c = "--"
      · subst hdash
        exact ⟨env0, by simp [envLoop, hc]⟩
      · exact ⟨env0, by simp [envLoop, hc, hdash]⟩
    | cons r rs =>
      by_cases hdash : c = "--"
      · subst hdash
        exact ⟨env0, by simp [envLoop, hc]⟩
      · exact ⟨env0, by simp [envLoop, hc, hdash]⟩
  | cons a t ih =>
    intro env0 hall
    have ha : (envMatch a).isSome = true := hall a (List.mem_cons_self a t)
    rcases hm : envMatch a with _ | nv
    · rw [hm] at ha; simp at ha
    · have hallt : ∀ x ∈ t, (envMatch x).isSome = true :=
        fun x hx => hall x (List.mem_cons_of_mem a hx)
      obtain ⟨envArgs, heq⟩ := ih (env0 ++ ["--env", nv.1 ++ "=" ++ nv.2]) hallt
      refine ⟨envArgs, ?_⟩
      cases t with
      | nil => simpa [envLoop, hm] using heq
      | cons b t2 => simpa [envLoop, hm] using heq

/-- C10: a non-empty command line in which every argument (including the
last) matches NAME=VALUE — NAME starting with an ASCII letter or
underscore and continuing with letters, digits or underscores — makes the
environment-argument split die, so executing the command aborts with a
fatal error and no engine exec call is ever issued; command lines whose
leading NAME=VALUE arguments are followed by a non-matching argument do
not abort the split. -/
theorem all_env_args_aborts (cmdArgs : List String)
    (hne : cmdArgs ≠ [])
    (hall : ∀ a ∈ cmdArgs, (envMatch a).isSome = true) :
    getEnvAndCmdArgs cmdArgs = .error .lastArgIsEnv ∧
    (∀ cfg eng s cdMode hostCwd, ∃ d,
      execCommandOnly cfg eng s cmdArgs cdMode hostCwd = (.error d, [])) ∧
    (∀ (envPart : List String) (c : String) (rest : List String),
      (∀ a ∈ envPart, (envMatch a).isSome = true) → envMatch c = none →
      ∃ envArgs out, getEnvAndCmdArgs (envPart ++ c :: rest) = .ok (envArgs, out)) := by
  have h1 : getEnvAndCmdArgs cmdArgs = .error .lastArgIsEnv :=
    envLoop_all_env cmdArgs [] hne hall
  refine ⟨h1, ?_, ?_⟩
  · intro cfg eng s cdMode hostCwd
    unfold execCommandOnly execCommandOnlyCore
    rcases getContainerId s with ⟨s', cid?⟩
    cases cid? with
    | none => exact ⟨.assertFailed, rfl⟩
    | some cid =>
      by_cases hcid : cid = ""
      · exact ⟨.assertFailed, by simp [hcid]⟩
      · by_cases hver : cfg.builtWithVersion ≠ numericVersion
        · exact ⟨.oldBuildVersion cfg.builtWithVersion numericVersion, by simp [hcid, hver]⟩
        · cases cdMode with
          | no => exact ⟨.lastArgIsEnv, by simp [hcid, hver, h1]⟩
          | yes =>
            cases hh : hostToContainerDir cfg.sharedPaths hostCwd with
            | none => exact ⟨.cdError hostCwd, by simp [hcid, hver, hh]⟩
            | some dir => exact ⟨.lastArgIsEnv, by simp [hcid, hver, hh, h1]⟩
          | auto =>
            cases hh : hostToContainerDir cfg.sharedPaths hostCwd with
            | none => exact ⟨.lastArgIsEnv, by simp [hcid, hver, hh, h1]⟩
            | some dir => exact ⟨.lastArgIsEnv, by simp [hcid, hver, hh, h1]⟩
  · intro envPart c rest hallPart hc
    obtain ⟨envArgs, heq⟩ := envLoop_env_then_cmd c rest hc envPart [] hallPart
    exact ⟨envArgs, if c = "--" then rest else c :: rest, heq⟩

/-- C10 (witness): FOO=1 B_2=x aborts the split and the exec issues no
engine call; FOO=1 ls -l does not abort the split. -/
theorem all_env_args_aborts_witness :
    getEnvAndCmdArgs ["FOO=1", "B_2=x"] = .error .lastArgIsEnv ∧
    (∃ d, execCommandOnly Fixtures.cfg0 Fixtures.engUp Fixtures.sAfter
      ["FOO=1", "B_2=x"] .auto "/home/u" = (.error d, [])) ∧
    (∃ envArgs out, getEnvAndCmdArgs (["FOO=1"] ++ "ls" :: ["-l"]) = .ok (envArgs, out)) := by
  have h := all_env_args_aborts ["FOO=1", "B_2=x"] (by simp) (by decide)
  exact ⟨h.1, h.2.1 Fixtures.cfg0 Fixtures.engUp Fixtures.sAfter .auto "/home/u",
    h.2.2 ["FOO=1"] "ls" ["-l"] (by decide) (by decide)⟩

/-- Reading the container ID when the cache is already populated. -/
theorem getContainerId_cached (s : CState) (c : ContainerContent) (h : s.cached = some c) :
    getContainerId s = (s, some c.id) := by
  simp [getContainerId, loadContainerContent, h]

/-- Reading the container ID when the cache is empty and the record file
exists: the content is cached. -/
theorem getContainerId_load (s : CState) (c : ContainerContent)
    (h1 : s.cached = none) (h2 : s.recordFile = some c) :
    getContainerId s = ({ s with cached := some c }, some c.id) := by
  simp [getContainerId, loadContainerContent, h1, h2]

/-- A `none` result means there was neither a cache nor a record file, and
the state is unchanged. -/
theorem getContainerId_none (s s' : CState) (h : getContainerId s = (s', none)) :
    s' = s ∧ s.cached = none ∧ s.recordFile = none := by
  cases hc : s.cached with
  | some c =>
    rw [getContainerId_cached s c hc] at h
    simp at h
  | none =>
    cases hr : s.recordFile with
    | some c =>
      rw [getContainerId_load s c hc hr] at h
      simp at h
    | none =>
      have hgid : getContainerId s = (s, none) := by
        simp [getContainerId, loadContainerContent, hc, hr]
      rw [hgid] at h
      obtain ⟨h1, -⟩ : s = s' ∧ ((none : Option String) = none) := by
        simpa [Prod.ext_iff] using h
      exact ⟨h1.symm, rfl, rfl⟩

/-- A `some` result leaves the returned state with a populated cache whose
ID is the result, the record file untouched, and a second read idempotent. -/
theorem getContainerId_some (s s' : CState) (cid : String)
    (h : getContainerId s = (s', some cid)) :
    ∃ c, s'.cached = some c ∧ c.id = cid ∧ s'.recordFile = s.recordFile ∧
      getContainerId s' = (s', some cid) := by
  cases hc : s.cached with
  | some c =>
    rw [getContainerId_cached s c hc] at h
    obtain ⟨rfl, hcid⟩ : s = s' ∧ c.id = cid := by
      simpa [Prod.ext_iff] using h
    exact ⟨c, hc, hcid, rfl, by rw [getContainerId_cached s c hc, hcid]⟩
  | none =>
    cases hr : s.recordFile with
    | none =>
      have : getContainerId s = (s, none) := by
        simp [getContainerId, loadContainerContent, hc, hr]
      rw [this] at h
      simp at h
    | some c =>
      rw [getContainerId_load s c hc hr] at h
      obtain ⟨hs, hcid⟩ : { s with cached := some c } = s' ∧ c.id = cid := by
        simpa [Prod.ext_iff] using h
      refine ⟨c, by rw [← hs], hcid, by rw [← hs]; exact hr ▸ rfl, ?_⟩
      rw [← hs, getContainerId_cached { s with cached := some c } c rfl, hcid]

/-- Exhaustive outcome of the exec-launch core: either an abort with an
empty trace, or a successful launch from the cache-refreshed state with a
single traced exec call. -/
theorem execCommandOnlyCore_cases (cfg : ImageCfg) (execOk : Bool) (s : CState)
    (c : List String) (m : CDMode) (w : String) :
    (∃ d, execCommandOnlyCore cfg execOk s c m w = (.error d, [])) ∨
    (∃ cid, execCommandOnlyCore cfg execOk s c m w =
      (.ok (getContainerId s).1, [.exec cid])) := by
  unfold execCommandOnlyCore
  rcases getContainerId s with ⟨s', cid?⟩
  cases cid? with
  | none => exact .inl ⟨.assertFailed, rfl⟩
  | some cid =>
    by_cases hcid : cid = ""
    · exact .inl ⟨.assertFailed, by simp [hcid]⟩
    · by_cases hver : cfg.builtWithVersion ≠ numericVersion
      · refine .inl ⟨.oldBuildVersion cfg.builtWithVersion numericVersion, ?_⟩
        simp [hcid, hver]
      · cases m with
        | no =>
          cases henv : getEnvAndCmdArgs c with
          | error d =>
            refine .inl ⟨d, ?_⟩
            simp [hcid, hver, henv]
          | ok p =>
            cases hok : execOk with
            | false =>
              refine .inl ⟨.dockerGone, ?_⟩
              simp [hcid, hver, henv]
            | true =>
              refine .inr ⟨cid, ?_⟩
              simp [hcid, hver, henv]
        | yes =>
          cases hh : hostToContainerDir cfg.sharedPaths w with
          | none =>
            refine .inl ⟨.cdError w, ?_⟩
            simp [hcid, hver, hh]
          | some d =>
            cases henv : getEnvAndCmdArgs c with
            | error dd =>
              refine .inl ⟨dd, ?_⟩
              simp [hcid, hver, hh, henv]
            | ok p =>
              cases hok : execOk with
              | false =>
                refine .inl ⟨.dockerGone, ?_⟩
                simp [hcid, hver, hh, henv]
              | true =>
                refine .inr ⟨cid, ?_⟩
                simp [hcid, hver, hh, henv]
        | auto =>
          cases hh : hostToContainerDir cfg.sharedPaths w with
          | none =>
            cases henv : getEnvAndCmdArgs c with
            | error dd =>
              refine .inl ⟨dd, ?_⟩
              simp [hcid, hver, hh, henv]
            | ok p =>
              cases hok : execOk with
              | false =>
                refine .inl ⟨.dockerGone, ?_⟩
                simp [hcid, hver, hh, henv]
              | true =>
                refine .inr ⟨cid, ?_⟩
                simp [hcid, hver, hh, henv]
          | some d =>
            cases henv : getEnvAndCmdArgs c with
            | error dd =>
              refine .inl ⟨dd, ?_⟩
              simp [hcid, hver, hh, henv]
            | ok p =>
              cases hok : execOk with
              | false =>
                refine .inl ⟨.dockerGone, ?_⟩
                simp [hcid, hver, hh, henv]
              | true =>
                refine .inr ⟨cid, ?_⟩
                simp [hcid, hver, hh, henv]


/-- Lift a core abort to `execCommandOnly`. -/
theorem execCommandOnly_core_error (cfg : ImageCfg) (eng : Engine) (s : CState)
    (c : List String) (m : CDMode) (w : String) (d : Died) (tr : List EngineCall)
    (h : execCommandOnlyCore cfg eng.execOk s c m w = (.error d, tr)) :
    execCommandOnly cfg eng s c m w = (.error d, tr) := by
  unfold execCommandOnly
  rw [h]

/-- Lift a core success to `execCommandOnly`: the engine's exit code is
attached. -/
theorem execCommandOnly_core_ok (cfg : ImageCfg) (eng : Engine) (s : CState)
    (c : List String) (m : CDMode) (w : String) (s' : CState) (tr : List EngineCall)
    (h : execCommandOnlyCore cfg eng.execOk s c m w = (.ok s', tr)) :
    execCommandOnly cfg eng s c m w = (.ok (s', eng.execCode), tr) := by
  unfold execCommandOnly
  rw [h]

/-- Exhaustive outcome of `execCommandOnly`, via the core. -/
theorem execCommandOnly_cases (cfg : ImageCfg) (eng : Engine) (s : CState)
    (c : List String) (m : CDMode) (w : String) :
    (∃ d, execCommandOnly cfg eng s c m w = (.error d, [])) ∨
    (∃ cid, execCommandOnly cfg eng s c m w =
      (.ok ((getContainerId s).1, eng.execCode), [.exec cid])) := by
  rcases execCommandOnlyCore_cases cfg eng.execOk s c m w with ⟨d, h⟩ | ⟨cid, h⟩
  · exact .inl ⟨d, execCommandOnly_core_error cfg eng s c m w d [] h⟩
  · exact .inr ⟨cid, execCommandOnly_core_ok cfg eng s c m w _ _ h⟩

/-- A cache refresh preserves the record file, keeps the cache within
the record content, and reports that content's ID. -/
theorem getContainerId_good (content : ContainerContent) (s : CState)
    (h1 : s.recordFile = some content) (h2 : s.cached = none ∨ s.cached = some content) :
    (getContainerId s).1.recordFile = some content ∧
    ((getContainerId s).1.cached = none ∨ (getContainerId s).1.cached = some content) ∧
    (getContainerId s).2 = some content.id := by
  rcases h2 with h2 | h2
  · rw [getContainerId_load s content h2 h1]
    simp [h1]
  · rw [getContainerId_cached s content h2]
    simp [h1, h2]

/-- Unfolding the hook runner over a failing first hook. -/
theorem execCommandsForTime_cons_error (cfg : ImageCfg) (eng : Engine) (s : CState)
    (c : List String) (rest : List (List String)) (d : Died) (tr : List EngineCall)
    (h : execCommandOnly cfg eng s c .no "" = (.error d, tr)) :
    execCommandsForTime cfg eng s (c :: rest) = (.error d, tr) := by
  unfold execCommandsForTime
  rw [h]

/-- Unfolding the hook runner over a succeeding first hook: its exit code
is dropped and the runner continues from the updated state. -/
theorem execCommandsForTime_cons_ok (cfg : ImageCfg) (eng : Engine) (s : CState)
    (c : List String) (rest : List (List String)) (s' : CState) (code : Int)
    (tr : List EngineCall)
    (h : execCommandOnly cfg eng s c .no "" = (.ok (s', code), tr)) :
    execCommandsForTime cfg eng s (c :: rest) =
      ((execCommandsForTime cfg eng s' rest).1,
        tr ++ (execCommandsForTime cfg eng s' rest).2) := by
  show ((match execCommandOnly cfg eng s c CDMode.no "" with
    | (.error d, tr) => (.error d, tr)
    | (.ok (s', _), tr) =>
      match execCommandsForTime cfg eng s' rest with
      | (r, tr2) => (r, tr ++ tr2)) : Except Died CState × List EngineCall) = _
  rw [h]

/-- Running a hook list from a state whose record is `content` and whose
cache agrees keeps that shape on success, and never issues a
create-container (run) engine call. -/
theorem execCommandsForTime_ok (cfg : ImageCfg) (eng : Engine) (content : ContainerContent) :
    ∀ (cmds : List (List String)) (s s₁ : CState) (tr : List EngineCall),
      s.recordFile = some content → (s.cached = none ∨ s.cached = some content) →
      execCommandsForTime cfg eng s cmds = (.ok s₁, tr) →
      s₁.recordFile = some content ∧ (s₁.cached = none ∨ s₁.cached = some content) ∧
      tr.count EngineCall.run = 0 := by
  intro cmds
  induction cmds with
  | nil =>
    intro s s₁ tr h1 h2 h
    unfold execCommandsForTime at h
    obtain ⟨hs, htr⟩ : s = s₁ ∧ [] = tr := by simpa [Prod.ext_iff] using h
    subst hs
    rw [← htr]
    exact ⟨h1, h2, rfl⟩
  | cons c rest ih =>
    intro s s₁ tr h1 h2 h
    rcases execCommandOnly_cases cfg eng s c .no "" with ⟨d, he⟩ | ⟨cid, he⟩
    · rw [execCommandsForTime_cons_error cfg eng s c rest d [] he] at h
      simp at h
    · rw [execCommandsForTime_cons_ok cfg eng s c rest (getContainerId s).1
        eng.execCode [.exec cid] he] at h
      rcases hrec : execCommandsForTime cfg eng (getContainerId s).1 rest with ⟨r, tr2⟩
      rw [hrec] at h
      cases r with
      | error d => simp at h
      | ok s2 =>
        obtain ⟨hs, htr⟩ : s2 = s₁ ∧ EngineCall.exec cid :: tr2 = tr := by
          simpa [Prod.ext_iff] using h
        subst hs
        obtain ⟨h1g, h2g, -⟩ := getContainerId_good content s h1 h2
        obtain ⟨ha, hb, hcount⟩ := ih (getContainerId s).1 s2 tr2 h1g h2g hrec
        refine ⟨ha, hb, ?_⟩
        rw [← htr]
        simpa [List.count_cons] using hcount

/-- The hook runner's outcome does not depend on the exit codes the engine
returns for the execs: each hook's exit status is dropped. -/
theorem execCommandsForTime_execCode (cfg : ImageCfg) (eng : Engine) (code : Int) :
    ∀ (cmds : List (List String)) (s : CState),
      execCommandsForTime cfg { eng with execCode := code } s cmds =
        execCommandsForTime cfg eng s cmds := by
  intro cmds
  induction cmds with
  | nil => intro s; rfl
  | cons c rest ih =>
    intro s
    rcases hcore : execCommandOnlyCore cfg eng.execOk s c .no "" with ⟨r, tr⟩
    cases r with
    | error d =>
      have ha := execCommandOnly_core_error cfg eng s c .no "" d tr hcore
      have hb := execCommandOnly_core_error cfg { eng with execCode := code } s c .no "" d tr hcore
      rw [execCommandsForTime_cons_error cfg eng s c rest d tr ha,
        execCommandsForTime_cons_error cfg { eng with execCode := code } s c rest d tr hb]
    | ok s2 =>
      have ha := execCommandOnly_core_ok cfg eng s c .no "" s2 tr hcore
      have hb := execCommandOnly_core_ok cfg { eng with execCode := code } s c .no "" s2 tr hcore
      rw [execCommandsForTime_cons_ok cfg eng s c rest s2 eng.execCode tr ha,
        execCommandsForTime_cons_ok cfg { eng with execCode := code } s c rest s2 code tr hb,
        ih s2]

/-- `_run_main_container` issues the create-container call at most once. -/
theorem runMainContainer_run_count (cfg : ImageCfg) (eng : Engine) (now : Nat) :
    (runMainContainer cfg eng now).2.count EngineCall.run ≤ 1 := by
  unfold runMainContainer
  rcases eng.imagesOutput with _ | out
  · show List.count EngineCall.run [EngineCall.images] ≤ 1
    decide
  · by_cases hs : pyStrip out = ""
    · simp [hs]
    · by_cases hv : cfg.builtWithVersion ≠ numericVersion
      · simp [hs, hv]
      · rcases eng.runOutput with _ | rid
        · simp [hs, hv, List.count_cons]
        · simp [hs, hv, List.count_cons]

/-- Unfolding a fresh start over a failing `_run_main_container`. -/
theorem startNewContainer_run_error (cfg : ImageCfg) (eng : Engine) (now : Nat)
    (s : CState) (d : Died) (tr : List EngineCall)
    (h : runMainContainer cfg eng now = (.error d, tr)) :
    startNewContainer cfg eng now s = (.error d, tr) := by
  unfold startNewContainer
  rw [h]

/-- Unfolding a fresh start over a succeeding `_run_main_container`: the
record is persisted and the at-start hooks run. -/
theorem startNewContainer_run_ok (cfg : ImageCfg) (eng : Engine) (now : Nat)
    (s : CState) (content : ContainerContent) (tr : List EngineCall)
    (h : runMainContainer cfg eng now = (.ok content, tr)) :
    startNewContainer cfg eng now s =
      ((execCommandsForTime cfg eng { s with recordFile := some content }
          (cfg.runCommands "start")).1,
        tr ++ (execCommandsForTime cfg eng { s with recordFile := some content }
          (cfg.runCommands "start")).2) := by
  unfold startNewContainer
  rw [h]

/-- A successful fresh start from an uncached state leaves a persisted
record with an agreeing cache and issues at most one run call in total. -/
theorem startNewContainer_ok (cfg : ImageCfg) (eng : Engine) (now : Nat)
    (s s₁ : CState) (tr : List EngineCall)
    (hc : s.cached = none)
    (h : startNewContainer cfg eng now s = (.ok s₁, tr)) :
    (∃ content, s₁.recordFile = some content ∧
      (s₁.cached = none ∨ s₁.cached = some content)) ∧
    tr.count EngineCall.run ≤ 1 := by
  rcases hrm : runMainContainer cfg eng now with ⟨r, tr1⟩
  cases r with
  | error d =>
    rw [startNewContainer_run_error cfg eng now s d tr1 hrm] at h
    simp at h
  | ok content =>
    rw [startNewContainer_run_ok cfg eng now s content tr1 hrm] at h
    rcases hect : execCommandsForTime cfg eng { s with recordFile := some content }
        (cfg.runCommands "start") with ⟨r2, tr2⟩
    rw [hect] at h
    cases r2 with
    | error d => simp at h
    | ok s2 =>
      obtain ⟨hs, htr⟩ : s2 = s₁ ∧ tr1 ++ tr2 = tr := by simpa [Prod.ext_iff] using h
      subst hs
      obtain ⟨ha, hb, hcount2⟩ := execCommandsForTime_ok cfg eng content
        (cfg.runCommands "start") { s with recordFile := some content } s2 tr2 rfl
        (by simp [hc]) hect
      have hcount1 : tr1.count EngineCall.run ≤ 1 := by
        have hr := runMainContainer_run_count cfg eng now
        rw [hrm] at hr
        exact hr
      refine ⟨⟨content, ha, hb⟩, ?_⟩
      rw [← htr]
      simp only [List.count_append, hcount2]
      omega


/-- `ensure_container_running` is a no-op when the recorded container is
reported running: one inspect call, nothing started. -/
theorem ensureContainerRunning_noop (cfg : ImageCfg) (eng : Engine) (now : Nat)
    (s s' : CState) (cid : String)
    (hg : getContainerId s = (s', some cid)) (hr : isContainerRunning eng cid = true) :
    ensureContainerRunning cfg eng now s = (.ok s', [.inspect cid]) := by
  unfold ensureContainerRunning
  rw [hg]
  simp [hr]

/-- When the engine reports the recorded container as not running, the
cached identifier is dropped and a fresh start is attempted. -/
theorem ensureContainerRunning_stale (cfg : ImageCfg) (eng : Engine) (now : Nat)
    (s s' : CState) (cid : String)
    (hg : getContainerId s = (s', some cid)) (hr : isContainerRunning eng cid = false) :
    ensureContainerRunning cfg eng now s =
      ((startNewContainer cfg eng now { s' with cached := none }).1,
        .inspect cid :: (startNewContainer cfg eng now { s' with cached := none }).2) := by
  unfold ensureContainerRunning
  rw [hg]
  simp only [hr, Bool.false_eq_true, if_false]

/-- With no stored container at all, `ensure_container_running` is exactly
a fresh start. -/
theorem ensureContainerRunning_fresh (cfg : ImageCfg) (eng : Engine) (now : Nat)
    (s s' : CState) (hg : getContainerId s = (s', none)) :
    ensureContainerRunning cfg eng now s = startNewContainer cfg eng now s' := by
  unfold ensureContainerRunning
  rw [hg]

/-- A successful `ensure_container_running` leaves a state from which the
container ID is readable again, and its trace holds at most one
create-container call. -/
theorem ensure_ok_shape (cfg : ImageCfg) (eng : Engine) (now : Nat)
    (s s₁ : CState) (t : List EngineCall)
    (h : ensureContainerRunning cfg eng now s = (.ok s₁, t)) :
    (∃ s₂ cid, getContainerId s₁ = (s₂, some cid)) ∧ t.count EngineCall.run ≤ 1 := by
  rcases hg : getContainerId s with ⟨s', cid?⟩
  cases cid? with
  | some cid =>
    by_cases hr : isContainerRunning eng cid = true
    · rw [ensureContainerRunning_noop cfg eng now s s' cid hg hr] at h
      obtain ⟨hs, ht⟩ : s' = s₁ ∧ [EngineCall.inspect cid] = t := by
        simpa [Prod.ext_iff] using h
      subst hs
      obtain ⟨c, hcach, hcid, -, hidem⟩ := getContainerId_some s s' cid hg
      refine ⟨⟨s', cid, hidem⟩, ?_⟩
      rw [← ht]
      simp [List.count_cons]
    · have hr' : isContainerRunning eng cid = false := by simpa using hr
      rw [ensureContainerRunning_stale cfg eng now s s' cid hg hr'] at h
      rcases hsn : startNewContainer cfg eng now { s' with cached := none } with ⟨r, tr⟩
      rw [hsn] at h
      cases r with
      | error d => simp at h
      | ok s2 =>
        obtain ⟨hs, ht⟩ : s2 = s₁ ∧ EngineCall.inspect cid :: tr = t := by
          simpa [Prod.ext_iff] using h
        subst hs
        obtain ⟨⟨content, hrec, hcach⟩, hcount⟩ :=
          startNewContainer_ok cfg eng now { s' with cached := none } s2 tr rfl hsn
        obtain ⟨-, -, hid⟩ := getContainerId_good content s2 hrec hcach
        refine ⟨⟨(getContainerId s2).1, content.id, Prod.ext rfl hid⟩, ?_⟩
        rw [← ht]
        simpa [List.count_cons] using hcount
  | none =>
    rw [ensureContainerRunning_fresh cfg eng now s s' hg] at h
    obtain ⟨hseq, hcachs, -⟩ := getContainerId_none s s' hg
    have hc' : s'.cached = none := by rw [hseq]; exact hcachs
    obtain ⟨⟨content, hrec, hcach⟩, hcount⟩ :=
      startNewContainer_ok cfg eng now s' s₁ t hc' h
    obtain ⟨-, -, hid⟩ := getContainerId_good content s₁ hrec hcach
    exact ⟨⟨(getContainerId s₁).1, content.id, Prod.ext rfl hid⟩, hcount⟩

/-- C1: with the engine reporting the recorded container as running, a
second `ensure_container_running` is idempotent: the first successful call
issued at most one create-container (run) invocation, and the second call
re-reads the stored identifier, queries the engine once, and returns
without starting anything (no run call at all); and whenever the engine
reports a recorded container as not running, the cached identifier is
cleared and the call proceeds exactly as a fresh start. -/
theorem ensure_container_running_idempotent (cfg : ImageCfg) (eng1 eng2 : Engine)
    (now1 now2 : Nat) (s s1 : CState) (t1 : List EngineCall)
    (h1 : ensureContainerRunning cfg eng1 now1 s = (.ok s1, t1))
    (h2 : ∀ s2 cid, getContainerId s1 = (s2, some cid) → isContainerRunning eng2 cid = true) :
    t1.count EngineCall.run ≤ 1 ∧
    (∃ s2 cid, getContainerId s1 = (s2, some cid) ∧
      ensureContainerRunning cfg eng2 now2 s1 = (.ok s2, [.inspect cid]) ∧
      (ensureContainerRunning cfg eng2 now2 s1).2.count EngineCall.run = 0) ∧
    (∀ (sx sx' : CState) (cid : String), getContainerId sx = (sx', some cid) →
      isContainerRunning eng2 cid = false →
      ensureContainerRunning cfg eng2 now2 sx =
        ((startNewContainer cfg eng2 now2 { sx' with cached := none }).1,
          .inspect cid :: (startNewContainer cfg eng2 now2 { sx' with cached := none }).2)) := by
  obtain ⟨⟨s2, cid, hg⟩, hcount⟩ := ensure_ok_shape cfg eng1 now1 s s1 t1 h1
  have hrun := h2 s2 cid hg
  have hnoop := ensureContainerRunning_noop cfg eng2 now2 s1 s2 cid hg hrun
  refine ⟨hcount, ⟨s2, cid, hg, hnoop, by rw [hnoop]; simp [List.count_cons]⟩, ?_⟩
  intro sx sx' cid' hg' hnr
  exact ensureContainerRunning_stale cfg eng2 now2 sx sx' cid' hg' hnr

/-- C1 (witness): a fresh start with an always-running engine, then a
second call that only inspects. -/
theorem ensure_container_running_idempotent_witness :
    ([EngineCall.images, EngineCall.run].count EngineCall.run ≤ 1) ∧
    (∃ s2 cid, getContainerId Fixtures.sAfter = (s2, some cid) ∧
      ensureContainerRunning Fixtures.cfg0 Fixtures.engUp 1 Fixtures.sAfter =
        (.ok s2, [.inspect cid]) ∧
      (ensureContainerRunning Fixtures.cfg0 Fixtures.engUp 1 Fixtures.sAfter).2.count
        EngineCall.run = 0) := by
  have h := ensure_container_running_idempotent Fixtures.cfg0 Fixtures.engUp Fixtures.engUp
    0 1 Fixtures.sEmpty Fixtures.sAfter [EngineCall.images, EngineCall.run] rfl ?_
  · exact ⟨h.1, h.2.1⟩
  · intro s2 cid hg
    have hc : some "cid123" = some cid := congrArg Prod.snd hg
    cases hc
    rfl

/-- C2: an image whose persisted built-with-version differs from the
running tool's version makes `ensure_container_running` (when nothing is
already running and the image has been built) fail with the staleness
error, and the engine run command is never issued. -/
theorem version_mismatch_blocks_start (cfg : ImageCfg) (eng : Engine) (now : Nat)
    (s : CState) (out : String)
    (hver : cfg.builtWithVersion ≠ numericVersion)
    (hbuilt : eng.imagesOutput = some out) (hne : pyStrip out ≠ "")
    (hnr : ∀ s' cid, getContainerId s = (s', some cid) → isContainerRunning eng cid = false) :
    (ensureContainerRunning cfg eng now s).1 =
      .error (.oldBuildVersion cfg.builtWithVersion numericVersion) ∧
    (ensureContainerRunning cfg eng now s).2.count EngineCall.run = 0 := by
  have hrm : runMainContainer cfg eng now =
      (.error (.oldBuildVersion cfg.builtWithVersion numericVersion), [.images]) := by
    unfold runMainContainer
    rw [hbuilt]
    simp [hne, hver]
  rcases hg : getContainerId s with ⟨s', cid?⟩
  cases cid? with
  | none =>
    rw [ensureContainerRunning_fresh cfg eng now s s' hg,
      startNewContainer_run_error cfg eng now s' _ _ hrm]
    exact ⟨rfl, by simp [List.count_cons]⟩
  | some cid =>
    have hr := hnr s' cid hg
    rw [ensureContainerRunning_stale cfg eng now s s' cid hg hr,
      startNewContainer_run_error cfg eng now { s' with cached := none } _ _ hrm]
    exact ⟨rfl, by simp [List.count_cons]⟩

/-- C2 (witness): a built image recorded with version 0.9.0 under tool
version 1.0.0, nothing running. -/
theorem version_mismatch_blocks_start_witness :
    (ensureContainerRunning Fixtures.cfgOld Fixtures.engUp 0 Fixtures.sEmpty).1 =
      .error (.oldBuildVersion [0, 9, 0] numericVersion) ∧
    (ensureContainerRunning Fixtures.cfgOld Fixtures.engUp 0 Fixtures.sEmpty).2.count
      EngineCall.run = 0 := by
  have h := version_mismatch_blocks_start Fixtures.cfgOld Fixtures.engUp 0 Fixtures.sEmpty
    "abc123\n" (by decide) rfl (by decide) ?_
  · exact h
  · intro s' cid hg
    exact Option.noConfusion (show (none : Option String) = some cid from congrArg Prod.snd hg)

/-- C6: `force_stop`, called with a (truthy) recorded container, first runs
every at-stop hook — their exit codes are ignored, as the hook runner's
outcome does not depend on the engine's exec exit code — then issues the
engine stop command followed by the verification query; if the engine then
still reports the container running, the operation fails fatally with the
still-running error; otherwise it succeeds, deleting the record when the
unlink succeeds and leaving it in place (still succeeding) when the unlink
fails. -/
theorem force_stop_spec (cfg : ImageCfg) (eng : Engine) (s s0 s1 : CState)
    (cid : String) (tr : List EngineCall)
    (hcid : getContainerId s = (s0, some cid)) (hne : cid ≠ "")
    (hhooks : execCommandsForTime cfg eng s0 (cfg.runCommands "stop") = (.ok s1, tr)) :
    (∀ code, execCommandsForTime cfg { eng with execCode := code } s0
      (cfg.runCommands "stop") = execCommandsForTime cfg eng s0 (cfg.runCommands "stop")) ∧
    (isContainerRunning eng cid = true →
      forceStop cfg eng s = (.error (.stillRunning cid), tr ++ [.stop cid, .inspect cid])) ∧
    (isContainerRunning eng cid = false →
      forceStop cfg eng s =
        (.ok (if eng.unlinkOk then { s1 with recordFile := none } else s1),
          tr ++ [.stop cid, .inspect cid])) := by
  refine ⟨fun code => execCommandsForTime_execCode cfg eng code
    (cfg.runCommands "stop") s0, ?_, ?_⟩
  · intro hr
    unfold forceStop
    rw [hcid]
    simp [hne, hhooks, hr]
  · intro hr
    unfold forceStop
    rw [hcid]
    simp [hne, hhooks, hr]

/-- C6 (witness): stopping a recorded container with no at-stop hooks on an
engine that reports it stopped deletes the record and succeeds. -/
theorem force_stop_spec_witness :
    forceStop Fixtures.cfg0 Fixtures.engDown Fixtures.sAfter =
      (.ok ⟨none, some ⟨"cid123", 0⟩⟩,
        [EngineCall.stop "cid123", EngineCall.inspect "cid123"]) := by
  have h := force_stop_spec Fixtures.cfg0 Fixtures.engDown Fixtures.sAfter
    ⟨some ⟨"cid123", 0⟩, some ⟨"cid123", 0⟩⟩ ⟨some ⟨"cid123", 0⟩, some ⟨"cid123", 0⟩⟩
    "cid123" [] rfl (by decide) rfl
  have h3 := h.2.2 rfl
  simpa using h3
